import Mathlib

/-!
GypsyCompass: the trip-planner wizard and the image resolver

A shallow embedding of the decision logic of
`frontend/src/pages/TripPlannerPage.js`: the preference record (`formData`),
the step validator (`canProceed`), the payload builder of `handleConfirm`, the
event handlers of the nine step cards and the suggestion timer as a transition
function on the component state; and of `getDestinationImage` of
`frontend/src/pages/ResultsPage.js` with its table `DESTINATION_IMAGES`.

The page is JavaScript, so the record holds strings and the validator relies
on the language's coercions (`'50000' > 0`, `parseInt('0.5')`).  The first part
of the file embeds exactly those coercions: `trim`, `length`, `ToNumber` on
strings, `parseFloat` and `parseInt`, with the rounding to binary64.
-/

namespace GypsyCompass

/-! ## JavaScript strings

A string is a Lean `String`; the functions work on its list of code points.
`length` counts UTF-16 code units, as `String.prototype.length` does. -/

/-- UTF-16 code units taken by one code point. -/
def utf16Units (c : Char) : Nat := if c.toNat < 65536 then 1 else 2

/-- The value of `s.length`. -/
def jsLength (s : List Char) : Nat := (s.map utf16Units).sum

/-- The code points of WhiteSpace and LineTerminator (ECMA-262, 12.2 and 12.3):
what `trim` strips and what `parseInt`, `parseFloat` and `ToNumber` skip. -/
def isWhiteSpace (c : Char) : Bool :=
  let n := c.toNat
  n = 0x9 || n = 0xA || n = 0xB || n = 0xC || n = 0xD || n = 0x20 || n = 0xA0
    || n = 0x1680 || (0x2000 ≤ n && n ≤ 0x200A) || n = 0x2028 || n = 0x2029
    || n = 0x202F || n = 0x205F || n = 0x3000 || n = 0xFEFF

/-- The string without its leading white space: `TrimString(s, start)`. -/
def trimStart (s : List Char) : List Char := s.dropWhile isWhiteSpace

/-- The string without its trailing white space: `TrimString(s, end)`. -/
def trimEnd (s : List Char) : List Char := (s.reverse.dropWhile isWhiteSpace).reverse

/-- The value of `s.trim()`. -/
def trim (s : List Char) : List Char := trimEnd (trimStart s)

/-! ## JavaScript numbers

A Number is NaN, an infinity, or a finite binary64 value: a sign, a
significand and a binary exponent, the significand odd, or zero with exponent
zero, so that equal values are equal terms (`+0` and `-0` stay apart, as in
the language). -/

/-- A Number value; `fin neg m e` is `± m × 2 ^ e`. -/
inductive JSNumber where
  | nan
  | posInf
  | negInf
  | fin (neg : Bool) (m : Nat) (e : Int)
  deriving DecidableEq

/-- The rational a finite Number denotes. -/
def JSNumber.toRat : JSNumber → Option ℚ
  | .fin neg m e => some ((if neg then -1 else 1) * (m : ℚ) * 2 ^ e)
  | _ => none

/-- The result of `x > 0`: false for NaN and for both zeros. -/
def JSNumber.gtZero : JSNumber → Bool
  | .nan => false
  | .posInf => true
  | .negInf => false
  | .fin neg m _ => !neg && decide (0 < m)

/-- Number of binary digits of `n`; the first argument bounds the recursion. -/
def bitLen : Nat → Nat → Nat
  | 0, _ => 0
  | fuel + 1, n => if n = 0 then 0 else bitLen fuel (n / 2) + 1

/-- Whether `2 ^ p ≤ a / b`, for `b > 0`. -/
def ratioGePow2 (a b : Nat) (p : Int) : Bool :=
  if 0 ≤ p then decide (b * 2 ^ p.toNat ≤ a) else decide (b ≤ a * 2 ^ (-p).toNat)

/-- The integer `p` with `2 ^ p ≤ a / b < 2 ^ (p + 1)`, for `a, b > 0`. -/
def floorLog2 (a b : Nat) : Int :=
  let p : Int := (bitLen a a : Int) - (bitLen b b : Int)
  if ratioGePow2 a b p then p else p - 1

/-- The significand `m` and exponent `ex` of the binary64 value nearest to
`a / b`, for `a, b > 0`: the value is `m × 2 ^ ex`, with `ex ≥ -1074` (the
subnormal spacing), `m ≤ 2 ^ 53`, ties going to the even significand. -/
def roundParts (a b : Nat) : Nat × Int :=
  let p := floorLog2 a b
  let ex : Int := if -1022 ≤ p then p - 52 else -1074
  let n : Nat := if 0 ≤ ex then a else a * 2 ^ (-ex).toNat
  let d : Nat := if 0 ≤ ex then b * 2 ^ ex.toNat else b
  let q : Nat := n / d
  let r : Nat := n % d
  (if d < 2 * r ∨ (2 * r = d ∧ q % 2 = 1) then q + 1 else q, ex)

/-- The pair `(m, e)` denoting the same `m × 2 ^ e` with `m` odd, or `(0, 0)`;
the first argument bounds the recursion. -/
def normalize : Nat → Nat → Int → Nat × Int
  | 0, m, e => if m = 0 then (0, 0) else (m, e)
  | fuel + 1, m, e =>
    if m = 0 then (0, 0)
    else if m % 2 = 0 then normalize fuel (m / 2) (e + 1)
    else (m, e)

/-- The Number value for the real `± a / b`: the nearest binary64 value, ties to
the even significand, an infinity from `2 ^ 1024` on (ECMA-262, 6.1.6.1). -/
def roundBinary64 (neg : Bool) (a b : Nat) : JSNumber :=
  if a = 0 ∨ b = 0 then .fin neg 0 0
  else if 0 ≤ (roundParts a b).2 ∧ 2 ^ 1024 ≤ (roundParts a b).1 * 2 ^ (roundParts a b).2.toNat then
    (if neg then .negInf else .posInf)
  else
    .fin neg (normalize (roundParts a b).1 (roundParts a b).1 (roundParts a b).2).1
      (normalize (roundParts a b).1 (roundParts a b).1 (roundParts a b).2).2

/-- The Number value of a natural number. -/
def JSNumber.ofNat (n : Nat) : JSNumber := roundBinary64 false n 1

/-- The Number value for the decimal `± m × 10 ^ e`. -/
def decimalToNumber (neg : Bool) (m : Nat) (e : Int) : JSNumber :=
  if 0 ≤ e then roundBinary64 neg (m * 10 ^ e.toNat) 1
  else roundBinary64 neg m (10 ^ (-e).toNat)

/-! ## Numeric literals in strings -/

/-- The value of a character as a digit: `0-9`, then `a-z` or `A-Z` for 10 to 35. -/
def digitValue (c : Char) : Option Nat :=
  let n := c.toNat
  if 48 ≤ n ∧ n ≤ 57 then some (n - 48)
  else if 97 ≤ n ∧ n ≤ 122 then some (n - 87)
  else if 65 ≤ n ∧ n ≤ 90 then some (n - 55)
  else none

/-- The value of a character as a digit of radix `R`, if it is one. -/
def radixDigit (R : Nat) (c : Char) : Option Nat :=
  match digitValue c with
  | some d => if d < R then some d else none
  | none => none

/-- The longest prefix of radix-`R` digits, as digit values, and what follows it. -/
def spanDigits (R : Nat) : List Char → List Nat × List Char
  | [] => ([], [])
  | c :: cs =>
    match radixDigit R c with
    | some d => ((d :: (spanDigits R cs).1), (spanDigits R cs).2)
    | none => ([], c :: cs)

/-- The integer written by a list of radix-`R` digits. -/
def digitsValue (R : Nat) (ds : List Nat) : Nat := ds.foldl (fun acc d => acc * R + d) 0

/-- An optional `+` or `-`: whether it was `-`, and what follows. -/
def splitSign : List Char → Bool × List Char
  | '+' :: t => (false, t)
  | '-' :: t => (true, t)
  | s => (false, s)

/-- An optional ExponentPart (`e` or `E`, an optional sign, at least one digit):
its value and what follows; `0` and the input itself when there is none. -/
def parseExponent : List Char → Int × List Char
  | [] => (0, [])
  | c :: t =>
    if c = 'e' ∨ c = 'E' then
      let ds := spanDigits 10 (splitSign t).2
      if ds.1 = [] then (0, c :: t)
      else ((if (splitSign t).1 then -(digitsValue 10 ds.1 : Int) else (digitsValue 10 ds.1 : Int)), ds.2)
    else (0, c :: t)

/-- A StrDecimalLiteral as read, before it is rounded to a Number: an infinity,
or the decimal `± m × 10 ^ e`. -/
inductive Literal where
  | infinity (neg : Bool)
  | decimal (neg : Bool) (m : Nat) (e : Int)
  deriving DecidableEq

/-- The Number value of a literal (StringNumericValue). -/
def Literal.toNumber : Literal → JSNumber
  | .infinity neg => if neg then .negInf else .posInf
  | .decimal neg m e => decimalToNumber neg m e

/-- The longest prefix that is a StrDecimalLiteral (ECMA-262, 7.1.4.1): an
optional sign, then `Infinity` or decimal digits with an optional fraction and
exponent.  Returns the literal and what follows it, `none` when no prefix is
one. -/
def parseStrDecimalLiteral (s : List Char) : Option (Literal × List Char) :=
  let neg := (splitSign s).1
  let u := (splitSign s).2
  if "Infinity".data.isPrefixOf u then some (.infinity neg, u.drop 8)
  else
    let d1 := spanDigits 10 u
    let d2 : List Nat × List Char :=
      match d1.2 with
      | '.' :: t => spanDigits 10 t
      | r => ([], r)
    if d1.1 = [] ∧ d2.1 = [] then none
    else
      let ex := parseExponent d2.2
      some (.decimal neg (digitsValue 10 (d1.1 ++ d2.1)) (ex.1 - d2.1.length), ex.2)

/-- The value of `parseFloat(s)` for a string `s` (ECMA-262, 19.2.4): the
longest StrDecimalLiteral that starts the string, leading white space skipped;
NaN when there is none. -/
def parseFloatStr (s : List Char) : JSNumber :=
  match parseStrDecimalLiteral (trimStart s) with
  | some (l, _) => l.toNumber
  | none => .nan

/-- The sign and the integer that `parseInt(s)` reads, no radix given
(ECMA-262, 19.2.5): leading white space and a sign are skipped, `0x` or `0X`
selects radix 16, and the longest prefix of digits is read; `none` when it is
empty. -/
def parseIntLiteral (s : List Char) : Option (Bool × Nat) :=
  let neg := (splitSign (trimStart s)).1
  let u := (splitSign (trimStart s)).2
  let hex : Bool := match u with
    | '0' :: 'x' :: _ => true
    | '0' :: 'X' :: _ => true
    | _ => false
  let R : Nat := if hex then 16 else 10
  let z := (spanDigits R (if hex then u.drop 2 else u)).1
  if z = [] then none else some (neg, digitsValue R z)

/-- The value of `parseInt(s)` for a string `s`: NaN when no digit is read. -/
def parseIntStr (s : List Char) : JSNumber :=
  match parseIntLiteral s with
  | some (neg, n) => roundBinary64 neg n 1
  | none => .nan

/-- A NonDecimalIntegerLiteral (`0b`, `0o`, `0x` and at least one digit, in
either case of the letter) that is the whole string: its integer. -/
def parseNonDecimal (s : List Char) : Option Nat :=
  let lit (R : Nat) (t : List Char) : Option Nat :=
    if (spanDigits R t).1 ≠ [] ∧ (spanDigits R t).2 = [] then
      some (digitsValue R (spanDigits R t).1)
    else none
  match s with
  | '0' :: 'b' :: t => lit 2 t
  | '0' :: 'B' :: t => lit 2 t
  | '0' :: 'o' :: t => lit 8 t
  | '0' :: 'O' :: t => lit 8 t
  | '0' :: 'x' :: t => lit 16 t
  | '0' :: 'X' :: t => lit 16 t
  | _ => none

/-- The literal that `ToNumber(s)` reads from a string `s` (StringToNumber,
ECMA-262, 7.1.4.1.1): zero for the empty or blank string, the literal when the
trimmed string is exactly one numeric literal, `none` (NaN) otherwise. -/
def stringNumericLiteral (s : List Char) : Option Literal :=
  if trim s = [] then some (.decimal false 0 0)
  else
    match parseNonDecimal (trim s) with
    | some n => some (.decimal false n 0)
    | none =>
      match parseStrDecimalLiteral (trim s) with
      | some (l, []) => some l
      | _ => none

/-- The value of `ToNumber(s)` for a string `s`. -/
def stringToNumber (s : List Char) : JSNumber :=
  match stringNumericLiteral s with
  | some l => l.toNumber
  | none => .nan

/-- Whether a string is a valid floating-point number of HTML: an optional `-`,
digits with an optional fraction or a fraction alone, an optional exponent.
The value of an `<input type="number">` is such a string or the empty one. -/
def validFloatingPointNumber (s : List Char) : Bool :=
  let u := match s with
    | '-' :: t => t
    | _ => s
  match (spanDigits 10 u).2 with
  | '.' :: t => (spanDigits 10 t).1 ≠ [] && (parseExponent (spanDigits 10 t).2).2 = []
  | r => (spanDigits 10 u).1 ≠ [] && (parseExponent r).2 = []

/-- What `e.target.value` of an `<input type="number">` can be. -/
def numberInputValue (v : String) : Bool := v = "" || validFloatingPointNumber v.data

/-! ## The preference record

`formData` of `TripPlannerPage`.  Every field holds a string, except
`destination_styles` (an array of strings) and `num_days`, in which the day
presets store a Number. -/

/-- A value of `formData.num_days`: the string of the number input, or the
Number written by a day preset (a non-negative safe integer). -/
inductive JSValue where
  | str (s : String)
  | num (n : Fin 9007199254740992)
  deriving DecidableEq

/-- The value of `ToNumber(v)`. -/
def JSValue.toNumber : JSValue → JSNumber
  | .str s => stringToNumber s.data
  | .num n => .ofNat n.val

/-- The value of `parseInt(v)`: a Number is first turned into its decimal
digits (it is a safe integer), which `parseInt` reads back whole. -/
def JSValue.parseInt : JSValue → JSNumber
  | .str s => parseIntStr s.data
  | .num n => .ofNat n.val

/-- The state `formData`. -/
structure FormData where
  name : String
  budget : String
  currency : String
  travel_type : String
  group_size : String
  travel_scope : String
  num_days : JSValue
  food_accommodation : String
  from_location : String
  travel_medium : String
  destination_styles : List String
  deriving DecidableEq

/-- The initial value of `formData`. -/
def initialFormData : FormData where
  name := ""
  budget := ""
  currency := "INR"
  travel_type := ""
  group_size := ""
  travel_scope := ""
  num_days := .str ""
  food_accommodation := ""
  from_location := ""
  travel_medium := ""
  destination_styles := []

/-- The function `canProceed`, as a function of the two pieces of state it reads. -/
def canProceed (currentStep : Int) (formData : FormData) : Bool :=
  match currentStep with
  | 1 => decide (2 ≤ jsLength (trim formData.name.data))
  | 2 => (stringToNumber formData.budget.data).gtZero
  | 3 => formData.travel_type != "" &&
      (formData.travel_type == "solo" || (stringToNumber formData.group_size.data).gtZero)
  | 4 => formData.travel_scope != ""
  | 5 => formData.num_days.toNumber.gtZero
  | 6 => formData.food_accommodation != ""
  | 7 => decide (2 ≤ jsLength (trim formData.from_location.data))
  | 8 => formData.travel_medium != ""
  | 9 => decide (0 < formData.destination_styles.length)
  | _ => true

/-- The object `payload` that `handleConfirm` builds. -/
structure Payload where
  name : String
  budget : JSNumber
  currency : String
  travel_type : String
  group_size : JSNumber
  travel_scope : String
  num_days : JSNumber
  food_accommodation : String
  from_location : String
  travel_medium : String
  destination_styles : List String
  deriving DecidableEq

/-- The payload of `handleConfirm`: a copy of `formData` with `budget`,
`group_size` and `num_days` replaced. -/
def buildPayload (formData : FormData) : Payload where
  name := formData.name
  budget := parseFloatStr formData.budget.data
  currency := formData.currency
  travel_type := formData.travel_type
  group_size := if formData.travel_type = "solo" then .ofNat 1 else parseIntStr formData.group_size.data
  travel_scope := formData.travel_scope
  num_days := formData.num_days.parseInt
  food_accommodation := formData.food_accommodation
  from_location := formData.from_location
  travel_medium := formData.travel_medium
  destination_styles := formData.destination_styles

/-! ## The component state and its event handlers -/

/-- The codes of `CURRENCIES`: the options of the currency select. -/
def CURRENCIES : List String := ["INR", "USD", "EUR", "GBP", "AED", "SGD"]

/-- The ids of `TRAVEL_MEDIUMS`. -/
def TRAVEL_MEDIUMS : List String := ["travel_agency", "bus", "flight", "train"]

/-- The items of `DESTINATION_STYLES`, category after category. -/
def DESTINATION_STYLES : List String :=
  ["Hill Stations", "Mountains", "Forests & Wildlife", "Waterfalls",
   "Beaches", "Backwaters & Lakes", "Islands",
   "Heritage Sites", "Temples & Spiritual", "Museums & Arts",
   "Deserts", "Caves",
   "Adventure", "City Life", "Village/Rural Tourism"]

/-- The ids of the two travel-type cards of step 3. -/
def travelTypeOptions : List String := ["solo", "group"]

/-- The ids of the two scope cards of step 4. -/
def travelScopeOptions : List String := ["within_country", "outside_country"]

/-- The ids of the two food cards of step 6. -/
def foodOptions : List String := ["with", "without"]

/-- The day presets of step 5. -/
def dayPresets : List (Fin 9007199254740992) := [3, 5, 7, 10, 14, 21]

/-- The message `handleConfirm` sets when the recommendation lookup fails. -/
def failureMessage : String :=
  "Failed to get recommendations. Please ensure the backend server is running."

/-- The delay of `setTimeout(() => fetchSuggestions(val), 400)`, in the time
units of the clock. -/
def suggestionDelay : Nat := 400

/-- A timer set by `handleLocationChange` and neither fired nor cleared: its id,
the time at which it fires, and the `val` its callback has captured. -/
structure Timer where
  id : Nat
  due : Nat
  query : String
  deriving DecidableEq

/-- The effect of `clearTimeout(id)` on the pending timers: the timer with that
id is dropped; nothing happens for `null` or for the id of a timer that has
fired. -/
def clearTimeout (timers : List Timer) (id : Option Nat) : List Timer :=
  timers.filter (fun t => some t.id != id)

/-- The state of `TripPlannerPage`: its `useState` cells and the timer ref, the
clock and the pending timers of the page, and what the component has handed to
its collaborators (`setUserPrefs`, the two lookups of `api.js`, `navigate`). -/
structure WizardState where
  currentStep : Int
  formData : FormData
  locationQuery : String
  suggestions : List String
  showSuggestions : Bool
  loading : Bool
  error : String
  /-- The ref `suggestionTimeout.current`: the id of the timer set last, if any. -/
  suggestionTimeout : Option Nat
  /-- The timers that are pending, oldest first. -/
  timers : List Timer
  /-- The id that `setTimeout` returns next. -/
  nextTimerId : Nat
  /-- The time on the clock of the page. -/
  now : Nat
  /-- The queries passed to `getLocationSuggestions`, oldest first. -/
  lookups : List String
  /-- The number of suggestion lookups not yet answered. -/
  lookupsInFlight : Nat
  /-- The last argument of `setUserPrefs`. -/
  userPrefs : Option Payload
  /-- The payloads passed to `getRecommendations`, oldest first. -/
  requests : List Payload
  /-- Whether `navigate('/results')` has been called. -/
  navigated : Bool
  deriving DecidableEq

/-- The state of the component when it is mounted. -/
def initialState : WizardState where
  currentStep := 1
  formData := initialFormData
  locationQuery := ""
  suggestions := []
  showSuggestions := false
  loading := false
  error := ""
  suggestionTimeout := none
  timers := []
  nextTimerId := 1
  now := 0
  lookups := []
  lookupsInFlight := 0
  userPrefs := none
  requests := []
  navigated := false

/-- The function `handleLocationChange`, called with `e.target.value`: it
writes the query, clears the timer of the ref and sets a new one. -/
def handleLocationChange (s : WizardState) (val : String) : WizardState :=
  { s with
    locationQuery := val
    formData := { s.formData with from_location := val }
    timers :=
      clearTimeout s.timers s.suggestionTimeout ++
        [{ id := s.nextTimerId, due := s.now + suggestionDelay, query := val }]
    suggestionTimeout := some s.nextTimerId
    nextTimerId := s.nextTimerId + 1 }

/-- The function `selectSuggestion`. -/
def selectSuggestion (s : WizardState) (suggestion : String) : WizardState :=
  { s with
    locationQuery := suggestion
    formData := { s.formData with from_location := suggestion }
    showSuggestions := false }

/-- The updater of `toggleStyle`, on the record. -/
def toggleStyle (prev : FormData) (style : String) : FormData :=
  { prev with
    destination_styles :=
      if prev.destination_styles.contains style then
        prev.destination_styles.filter (fun x => x != style)
      else prev.destination_styles ++ [style] }

/-- The start of `fetchSuggestions(q)`, up to the `await`: a query shorter than
two code units empties the list, any other is passed to the lookup. -/
def fetchSuggestions (s : WizardState) (q : String) : WizardState :=
  if jsLength q.data < 2 then { s with suggestions := [] }
  else { s with lookups := s.lookups ++ [q], lookupsInFlight := s.lookupsInFlight + 1 }

/-- The timers that are due fire, oldest first: each runs its callback
`fetchSuggestions(val)` and is no longer pending. -/
def fireDue (s : WizardState) : WizardState :=
  (s.timers.filter (fun t => decide (t.due ≤ s.now))).foldl
    (fun acc t => fetchSuggestions acc t.query)
    { s with timers := s.timers.filter (fun t => !decide (t.due ≤ s.now)) }

/-- The function `handleConfirm`, up to the `await`: it builds the payload from
the record as it is and hands it to `setUserPrefs` and `getRecommendations`. -/
def handleConfirm (s : WizardState) : WizardState :=
  { s with
    loading := true
    error := ""
    userPrefs := some (buildPayload s.formData)
    requests := s.requests ++ [buildPayload s.formData] }

/-- The controls of the nine step cards, each with the value its event carries. -/
inductive Control where
  | nameInput (v : String)
  | budgetInput (v : String)
  | currencySelect (code : String)
  | travelTypeCard (id : String)
  | groupSizeInput (v : String)
  | scopeCard (id : String)
  | numDaysInput (v : String)
  | dayPreset (day : Fin 9007199254740992)
  | foodCard (id : String)
  | locationInput (v : String)
  | locationFocus
  | suggestionItem (suggestion : String)
  | outsideMouseDown
  | mediumCard (id : String)
  | styleTag (item : String)
  | continueButton
  | backButton
  | confirmButton
  deriving DecidableEq

/-- The argument of `setCurrentStep` in the Continue button of each card; the
card of step 9 has no such button. -/
def continueTarget : Int → Option Int
  | 1 => some 2
  | 2 => some 3
  | 3 => some 4
  | 4 => some 5
  | 5 => some 6
  | 6 => some 7
  | 7 => some 8
  | 8 => some 9
  | _ => none

/-- The argument of `setCurrentStep` in the Back button of each card; the card
of step 1 has no such button. -/
def backTarget : Int → Option Int
  | 2 => some 1
  | 3 => some 2
  | 4 => some 3
  | 5 => some 4
  | 6 => some 5
  | 7 => some 6
  | 8 => some 7
  | 9 => some 8
  | _ => none

/-- Whether the wizard view shows the control and lets it fire: the card of
`currentStep` contains it, its own display condition holds, the value is one the
control can carry, and it is not `disabled`. -/
def enabled (s : WizardState) : Control → Bool
  | .nameInput _ => s.currentStep = 1
  | .budgetInput v => s.currentStep = 2 && numberInputValue v
  | .currencySelect code => s.currentStep = 2 && decide (code ∈ CURRENCIES)
  | .travelTypeCard id => s.currentStep = 3 && decide (id ∈ travelTypeOptions)
  | .groupSizeInput v =>
      s.currentStep = 3 && s.formData.travel_type == "group" && numberInputValue v
  | .scopeCard id => s.currentStep = 4 && decide (id ∈ travelScopeOptions)
  | .numDaysInput v => s.currentStep = 5 && numberInputValue v
  | .dayPreset day =>
      s.currentStep = 5 && s.formData.num_days.toNumber.gtZero && decide (day ∈ dayPresets)
  | .foodCard id => s.currentStep = 6 && decide (id ∈ foodOptions)
  | .locationInput _ => s.currentStep = 7
  | .locationFocus => s.currentStep = 7
  | .suggestionItem suggestion =>
      s.currentStep = 7 && s.showSuggestions && decide (suggestion ∈ s.suggestions)
  | .outsideMouseDown => s.currentStep = 7
  | .mediumCard id => s.currentStep = 8 && decide (id ∈ TRAVEL_MEDIUMS)
  | .styleTag item => s.currentStep = 9 && decide (item ∈ DESTINATION_STYLES)
  | .continueButton =>
      (continueTarget s.currentStep).isSome && canProceed s.currentStep s.formData
  | .backButton => (backTarget s.currentStep).isSome
  | .confirmButton => s.currentStep = 9 && canProceed s.currentStep s.formData

/-- The handler of the control, on the state. -/
def fire (s : WizardState) : Control → WizardState
  | .nameInput v => { s with formData := { s.formData with name := v } }
  | .budgetInput v => { s with formData := { s.formData with budget := v } }
  | .currencySelect code => { s with formData := { s.formData with currency := code } }
  | .travelTypeCard id =>
      { s with
        formData :=
          { s.formData with travel_type := id, group_size := if id = "solo" then "1" else "" } }
  | .groupSizeInput v => { s with formData := { s.formData with group_size := v } }
  | .scopeCard id => { s with formData := { s.formData with travel_scope := id } }
  | .numDaysInput v => { s with formData := { s.formData with num_days := .str v } }
  | .dayPreset day => { s with formData := { s.formData with num_days := .num day } }
  | .foodCard id => { s with formData := { s.formData with food_accommodation := id } }
  | .locationInput v => handleLocationChange s v
  | .locationFocus => if 0 < s.suggestions.length then { s with showSuggestions := true } else s
  | .suggestionItem suggestion => selectSuggestion s suggestion
  | .outsideMouseDown => { s with showSuggestions := false }
  | .mediumCard id => { s with formData := { s.formData with travel_medium := id } }
  | .styleTag item => { s with formData := toggleStyle s.formData item }
  | .continueButton =>
      match continueTarget s.currentStep with
      | some k => { s with currentStep := k }
      | none => s
  | .backButton =>
      match backTarget s.currentStep with
      | some k => { s with currentStep := k }
      | none => s
  | .confirmButton => handleConfirm s

/-- A user event on a control of the wizard view: the handler runs if the
control is shown and enabled, and nothing happens otherwise. -/
def click (s : WizardState) (c : Control) : WizardState :=
  if enabled s c then fire s c else s

/-- What can happen to the mounted component: a user event, time passing (with
the timers that come due firing), and the answers of the two lookups. -/
inductive Action where
  | ui (c : Control)
  | elapse (dt : Nat)
  | suggestionsArrive (suggestions : List String)
  | suggestionsFail
  | recommendationsArrive
  | recommendationsFail
  deriving DecidableEq

/-- One transition of the component.  While `loading` is set the component
renders the loading screen instead of the wizard, so no control can fire; after
`navigate('/results')` the component is gone. -/
def step (s : WizardState) (a : Action) : WizardState :=
  if s.navigated then s
  else
    match a with
    | .ui c => if s.loading then s else click s c
    | .elapse dt => fireDue { s with now := s.now + dt }
    | .suggestionsArrive suggestions =>
        if 0 < s.lookupsInFlight then
          { s with
            suggestions := suggestions
            showSuggestions := true
            lookupsInFlight := s.lookupsInFlight - 1 }
        else s
    | .suggestionsFail =>
        if 0 < s.lookupsInFlight then
          { s with suggestions := [], lookupsInFlight := s.lookupsInFlight - 1 }
        else s
    | .recommendationsArrive => if s.loading then { s with navigated := true } else s
    | .recommendationsFail =>
        if s.loading then { s with error := failureMessage, loading := false } else s

/-- The state after a sequence of transitions. -/
def run (s : WizardState) (as : List Action) : WizardState := as.foldl step s

/-! ## Reading the record field by field -/

/-- The fields of the preference record. -/
inductive Field where
  | name
  | budget
  | currency
  | travel_type
  | group_size
  | travel_scope
  | num_days
  | food_accommodation
  | from_location
  | travel_medium
  | destination_styles
  deriving DecidableEq

/-- What a field of the record can hold. -/
inductive FieldValue where
  | text (s : String)
  | days (v : JSValue)
  | styles (l : List String)
  deriving DecidableEq

/-- The content of a field of the record. -/
def FormData.get (r : FormData) : Field → FieldValue
  | .name => .text r.name
  | .budget => .text r.budget
  | .currency => .text r.currency
  | .travel_type => .text r.travel_type
  | .group_size => .text r.group_size
  | .travel_scope => .text r.travel_scope
  | .num_days => .days r.num_days
  | .food_accommodation => .text r.food_accommodation
  | .from_location => .text r.from_location
  | .travel_medium => .text r.travel_medium
  | .destination_styles => .styles r.destination_styles

/-- The field that the handler of a control names in its write, if it writes
the record. -/
def Control.target : Control → Option Field
  | .nameInput _ => some .name
  | .budgetInput _ => some .budget
  | .currencySelect _ => some .currency
  | .travelTypeCard _ => some .travel_type
  | .groupSizeInput _ => some .group_size
  | .scopeCard _ => some .travel_scope
  | .numDaysInput _ => some .num_days
  | .dayPreset _ => some .num_days
  | .foodCard _ => some .food_accommodation
  | .locationInput _ => some .from_location
  | .suggestionItem _ => some .from_location
  | .mediumCard _ => some .travel_medium
  | .styleTag _ => some .destination_styles
  | _ => none

/-- The value that the event of a control carries for its field; a style tag
carries no value to store, it toggles a member of the list. -/
def Control.value : Control → Option FieldValue
  | .nameInput v => some (.text v)
  | .budgetInput v => some (.text v)
  | .currencySelect code => some (.text code)
  | .travelTypeCard id => some (.text id)
  | .groupSizeInput v => some (.text v)
  | .scopeCard id => some (.text id)
  | .numDaysInput v => some (.days (.str v))
  | .dayPreset day => some (.days (.num day))
  | .foodCard id => some (.text id)
  | .locationInput v => some (.text v)
  | .suggestionItem suggestion => some (.text suggestion)
  | .mediumCard id => some (.text id)
  | _ => none

/-! ## The step table of the specification -/

/-- A Number is greater than zero: it is `+∞`, or finite and denotes a positive
rational. -/
def JSNumber.Positive (x : JSNumber) : Prop := x = .posInf ∨ ∃ q : ℚ, x.toRat = some q ∧ 0 < q

/-- A string field is set: it no longer holds the empty string it starts with. -/
def IsSet (v : String) : Prop := v ≠ ""

/-- The table of per-step predicates of the specification (section 4.2), with
the numeric comparisons read on the Number the field converts to. -/
def stepTable : Int → FormData → Prop
  | 1, r => 2 ≤ jsLength (trim r.name.data)
  | 2, r => (stringToNumber r.budget.data).Positive
  | 3, r => IsSet r.travel_type ∧
      (r.travel_type = "solo" ∨ (stringToNumber r.group_size.data).Positive)
  | 4, r => IsSet r.travel_scope
  | 5, r => r.num_days.toNumber.Positive
  | 6, r => IsSet r.food_accommodation
  | 7, r => 2 ≤ jsLength (trim r.from_location.data)
  | 8, r => IsSet r.travel_medium
  | 9, r => r.destination_styles ≠ []
  | _, _ => True

/-- The fields that the table names for each step. -/
def stepFields : Int → List Field
  | 1 => [.name]
  | 2 => [.budget]
  | 3 => [.travel_type, .group_size]
  | 4 => [.travel_scope]
  | 5 => [.num_days]
  | 6 => [.food_accommodation]
  | 7 => [.from_location]
  | 8 => [.travel_medium]
  | 9 => [.destination_styles]
  | _ => []

/-! ## The scenario of the specification -/

/-- The record of the end-to-end scenario, with the group size that selecting
`solo` stores. -/
def arjunRecord : FormData where
  name := "Arjun"
  budget := "50000"
  currency := "INR"
  travel_type := "solo"
  group_size := "1"
  travel_scope := "within_country"
  num_days := .str "7"
  food_accommodation := "with"
  from_location := "Chennai"
  travel_medium := "flight"
  destination_styles := ["Hill Stations"]

/-- The user events that enter the scenario record, card after card. -/
def arjunEvents : List Action :=
  [.ui (.nameInput "Arjun"), .ui .continueButton,
   .ui (.budgetInput "50000"), .ui (.currencySelect "INR"), .ui .continueButton,
   .ui (.travelTypeCard "solo"), .ui .continueButton,
   .ui (.scopeCard "within_country"), .ui .continueButton,
   .ui (.numDaysInput "7"), .ui .continueButton,
   .ui (.foodCard "with"), .ui .continueButton,
   .ui (.locationInput "Chennai"), .ui .continueButton,
   .ui (.mediumCard "flight"), .ui .continueButton,
   .ui (.styleTag "Hill Stations")]

/-- A run that selects a group trip and types the group size `size`, every
other entry as in the scenario. -/
def groupEvents (size : String) : List Action :=
  [.ui (.nameInput "Arjun"), .ui .continueButton,
   .ui (.budgetInput "50000"), .ui .continueButton,
   .ui (.travelTypeCard "group"), .ui (.groupSizeInput size), .ui .continueButton,
   .ui (.scopeCard "within_country"), .ui .continueButton,
   .ui (.numDaysInput "7"), .ui .continueButton,
   .ui (.foodCard "with"), .ui .continueButton,
   .ui (.locationInput "Chennai"), .ui .continueButton,
   .ui (.mediumCard "flight"), .ui .continueButton,
   .ui (.styleTag "Hill Stations"), .ui .confirmButton]

/-- A run that types `days` into the number-of-days input, every other entry
as in the scenario. -/
def daysEvents (days : String) : List Action :=
  [.ui (.nameInput "Arjun"), .ui .continueButton,
   .ui (.budgetInput "50000"), .ui .continueButton,
   .ui (.travelTypeCard "solo"), .ui .continueButton,
   .ui (.scopeCard "within_country"), .ui .continueButton,
   .ui (.numDaysInput days), .ui .continueButton,
   .ui (.foodCard "with"), .ui .continueButton,
   .ui (.locationInput "Chennai"), .ui .continueButton,
   .ui (.mediumCard "flight"), .ui .continueButton,
   .ui (.styleTag "Hill Stations"), .ui .confirmButton]

/-- The user events that take the wizard from its initial state to step 7, the
card of the departure location. -/
def toStepSeven : List Action :=
  [.ui (.nameInput "Arjun"), .ui .continueButton,
   .ui (.budgetInput "50000"), .ui .continueButton,
   .ui (.travelTypeCard "solo"), .ui .continueButton,
   .ui (.scopeCard "within_country"), .ui .continueButton,
   .ui (.numDaysInput "7"), .ui .continueButton,
   .ui (.foodCard "with"), .ui .continueButton]

/-- The timers that are pending are the one timer of the ref, if any: there is
at most one, and its id is in `suggestionTimeout.current`. -/
def TimerInv (s : WizardState) : Prop :=
  s.timers.length ≤ 1 ∧ ∀ t ∈ s.timers, s.suggestionTimeout = some t.id

/-! ## The destination images of the results page

`getDestinationImage` of `frontend/src/pages/ResultsPage.js` and its table.
`String.prototype.toLowerCase` is a built-in of the language whose Unicode
table is not part of the repository: it is a parameter of the embedding, and
the theorems say which of its properties they use. -/

/-- The entries of `DESTINATION_IMAGES`, in the order of the object literal,
which is the order in which `Object.entries` lists them. -/
def DESTINATION_IMAGES : List (String × String) :=
  [("default", "https://images.unsplash.com/photo-1469854523086-cc02fe5d8800?w=600&q=80"),
   ("manali", "https://images.unsplash.com/photo-1626621341517-bbf3d9990a23?w=600&q=80"),
   ("shimla", "https://images.unsplash.com/photo-1597074866923-dc0589150358?w=600&q=80"),
   ("ladakh", "https://images.unsplash.com/photo-1558618666-fcd25c85cd64?w=600&q=80"),
   ("leh", "https://images.unsplash.com/photo-1558618666-fcd25c85cd64?w=600&q=80"),
   ("darjeeling", "https://images.unsplash.com/photo-1544735716-392fe2489ffa?w=600&q=80"),
   ("coorg", "https://images.unsplash.com/photo-1591017403286-fd8493524e1e?w=600&q=80"),
   ("kodagu", "https://images.unsplash.com/photo-1591017403286-fd8493524e1e?w=600&q=80"),
   ("munnar", "https://images.unsplash.com/photo-1587974928442-77dc3e0dba72?w=600&q=80"),
   ("ooty", "https://images.unsplash.com/photo-1582131503261-fca1d1c0589f?w=600&q=80"),
   ("mussoorie", "https://images.unsplash.com/photo-1597074866923-dc0589150358?w=600&q=80"),
   ("meghalaya", "https://images.unsplash.com/photo-1519655377407-b66b59b93e45?w=600&q=80"),
   ("cherrapunji", "https://images.unsplash.com/photo-1519655377407-b66b59b93e45?w=600&q=80"),
   ("spiti", "https://images.unsplash.com/photo-1609587312208-cea54be969e7?w=600&q=80"),
   ("nainital", "https://images.unsplash.com/photo-1506905925346-21bda4d32df4?w=600&q=80"),
   ("kodaikanal", "https://images.unsplash.com/photo-1506905925346-21bda4d32df4?w=600&q=80"),
   ("goa", "https://images.unsplash.com/photo-1512343879784-a960bf40e7f2?w=600&q=80"),
   ("andaman", "https://images.unsplash.com/photo-1559628233-100c798642d4?w=600&q=80"),
   ("lakshadweep", "https://images.unsplash.com/photo-1507525428034-b723cf961d3e?w=600&q=80"),
   ("pondicherry", "https://images.unsplash.com/photo-1507525428034-b723cf961d3e?w=600&q=80"),
   ("varkala", "https://images.unsplash.com/photo-1507525428034-b723cf961d3e?w=600&q=80"),
   ("jaisalmer", "https://images.unsplash.com/photo-1524492412937-b28074a5d7da?w=600&q=80"),
   ("rajasthan", "https://images.unsplash.com/photo-1524492412937-b28074a5d7da?w=600&q=80"),
   ("jaipur", "https://images.unsplash.com/photo-1524492412937-b28074a5d7da?w=600&q=80"),
   ("udaipur", "https://images.unsplash.com/photo-1524492412937-b28074a5d7da?w=600&q=80"),
   ("jodhpur", "https://images.unsplash.com/photo-1524492412937-b28074a5d7da?w=600&q=80"),
   ("rann", "https://images.unsplash.com/photo-1518684079-3c830dcef090?w=600&q=80"),
   ("kutch", "https://images.unsplash.com/photo-1518684079-3c830dcef090?w=600&q=80"),
   ("varanasi", "https://images.unsplash.com/photo-1548013146-72479768bada?w=600&q=80"),
   ("hampi", "https://images.unsplash.com/photo-1548013146-72479768bada?w=600&q=80"),
   ("agra", "https://images.unsplash.com/photo-1548013146-72479768bada?w=600&q=80"),
   ("taj", "https://images.unsplash.com/photo-1548013146-72479768bada?w=600&q=80"),
   ("amritsar", "https://images.unsplash.com/photo-1548013146-72479768bada?w=600&q=80"),
   ("golden temple", "https://images.unsplash.com/photo-1548013146-72479768bada?w=600&q=80"),
   ("tamil nadu", "https://images.unsplash.com/photo-1582510003544-4d00b7f74220?w=600&q=80"),
   ("madurai", "https://images.unsplash.com/photo-1582510003544-4d00b7f74220?w=600&q=80"),
   ("tirupati", "https://images.unsplash.com/photo-1582510003544-4d00b7f74220?w=600&q=80"),
   ("kerala", "https://images.unsplash.com/photo-1602216056096-3b40cc0c9944?w=600&q=80"),
   ("backwaters", "https://images.unsplash.com/photo-1602216056096-3b40cc0c9944?w=600&q=80"),
   ("alleppey", "https://images.unsplash.com/photo-1602216056096-3b40cc0c9944?w=600&q=80"),
   ("wayanad", "https://images.unsplash.com/photo-1602216056096-3b40cc0c9944?w=600&q=80"),
   ("sundarbans", "https://images.unsplash.com/photo-1448375240586-882707db888b?w=600&q=80"),
   ("ranthambore", "https://images.unsplash.com/photo-1549366021-9f761d450615?w=600&q=80"),
   ("corbett", "https://images.unsplash.com/photo-1549366021-9f761d450615?w=600&q=80"),
   ("kaziranga", "https://images.unsplash.com/photo-1549366021-9f761d450615?w=600&q=80"),
   ("rishikesh", "https://images.unsplash.com/photo-1590073242678-70ee3fc28f8e?w=600&q=80"),
   ("mumbai", "https://images.unsplash.com/photo-1567157577867-05ccb1388e66?w=600&q=80"),
   ("delhi", "https://images.unsplash.com/photo-1548013146-72479768bada?w=600&q=80"),
   ("kolkata", "https://images.unsplash.com/photo-1567157577867-05ccb1388e66?w=600&q=80"),
   ("chennai", "https://images.unsplash.com/photo-1582510003544-4d00b7f74220?w=600&q=80"),
   ("bangalore", "https://images.unsplash.com/photo-1567157577867-05ccb1388e66?w=600&q=80"),
   ("hyderabad", "https://images.unsplash.com/photo-1567157577867-05ccb1388e66?w=600&q=80"),
   ("bali", "https://images.unsplash.com/photo-1537996194471-e657df975ab4?w=600&q=80"),
   ("thailand", "https://images.unsplash.com/photo-1552465011-b4e21bf6e79a?w=600&q=80"),
   ("bangkok", "https://images.unsplash.com/photo-1552465011-b4e21bf6e79a?w=600&q=80"),
   ("phuket", "https://images.unsplash.com/photo-1552465011-b4e21bf6e79a?w=600&q=80"),
   ("dubai", "https://images.unsplash.com/photo-1512453979798-5ea266f8880c?w=600&q=80"),
   ("maldives", "https://images.unsplash.com/photo-1514282401047-d79a71a590e8?w=600&q=80"),
   ("nepal", "https://images.unsplash.com/photo-1544735716-392fe2489ffa?w=600&q=80"),
   ("sri lanka", "https://images.unsplash.com/photo-1537996194471-e657df975ab4?w=600&q=80"),
   ("srilanka", "https://images.unsplash.com/photo-1537996194471-e657df975ab4?w=600&q=80"),
   ("singapore", "https://images.unsplash.com/photo-1525625293386-3f8f99389edd?w=600&q=80"),
   ("vietnam", "https://images.unsplash.com/photo-1537996194471-e657df975ab4?w=600&q=80"),
   ("paris", "https://images.unsplash.com/photo-1502602898657-3e91760cbb34?w=600&q=80"),
   ("france", "https://images.unsplash.com/photo-1502602898657-3e91760cbb34?w=600&q=80"),
   ("japan", "https://images.unsplash.com/photo-1493976040374-85c8e12f0c0e?w=600&q=80"),
   ("tokyo", "https://images.unsplash.com/photo-1493976040374-85c8e12f0c0e?w=600&q=80"),
   ("london", "https://images.unsplash.com/photo-1513635269975-59663e0ac1ad?w=600&q=80"),
   ("switzerland", "https://images.unsplash.com/photo-1506905925346-21bda4d32df4?w=600&q=80"),
   ("italy", "https://images.unsplash.com/photo-1534445867742-43195f401b6c?w=600&q=80"),
   ("rome", "https://images.unsplash.com/photo-1534445867742-43195f401b6c?w=600&q=80"),
   ("turkey", "https://images.unsplash.com/photo-1541432901042-2d8bd64b4a9b?w=600&q=80"),
   ("istanbul", "https://images.unsplash.com/photo-1541432901042-2d8bd64b4a9b?w=600&q=80"),
   ("australia", "https://images.unsplash.com/photo-1506973035872-a4ec16b8e8d9?w=600&q=80"),
   ("new zealand", "https://images.unsplash.com/photo-1507699622108-4be3abd695ad?w=600&q=80"),
   ("egypt", "https://images.unsplash.com/photo-1539768942893-daf53e736b68?w=600&q=80"),
   ("greece", "https://images.unsplash.com/photo-1533105079780-92b9be482077?w=600&q=80"),
   ("spain", "https://images.unsplash.com/photo-1543783207-ec64e4d95325?w=600&q=80"),
   ("malaysia", "https://images.unsplash.com/photo-1508444845599-5c89863b1c44?w=600&q=80"),
   ("cambodia", "https://images.unsplash.com/photo-1539367628448-4bc5c9d171c8?w=600&q=80"),
   ("mountain", "https://images.unsplash.com/photo-1506905925346-21bda4d32df4?w=600&q=80"),
   ("hill", "https://images.unsplash.com/photo-1506905925346-21bda4d32df4?w=600&q=80"),
   ("beach", "https://images.unsplash.com/photo-1507525428034-b723cf961d3e?w=600&q=80"),
   ("coastal", "https://images.unsplash.com/photo-1507525428034-b723cf961d3e?w=600&q=80"),
   ("desert", "https://images.unsplash.com/photo-1518684079-3c830dcef090?w=600&q=80"),
   ("forest", "https://images.unsplash.com/photo-1448375240586-882707db888b?w=600&q=80"),
   ("island", "https://images.unsplash.com/photo-1559628233-100c798642d4?w=600&q=80"),
   ("heritage", "https://images.unsplash.com/photo-1548013146-72479768bada?w=600&q=80"),
   ("waterfall", "https://images.unsplash.com/photo-1519655377407-b66b59b93e45?w=600&q=80"),
   ("temple", "https://images.unsplash.com/photo-1582510003544-4d00b7f74220?w=600&q=80"),
   ("city", "https://images.unsplash.com/photo-1567157577867-05ccb1388e66?w=600&q=80"),
   ("lake", "https://images.unsplash.com/photo-1506905925346-21bda4d32df4?w=600&q=80"),
   ("wildlife", "https://images.unsplash.com/photo-1549366021-9f761d450615?w=600&q=80"),
   ("safari", "https://images.unsplash.com/photo-1549366021-9f761d450615?w=600&q=80"),
   ("adventure", "https://images.unsplash.com/photo-1590073242678-70ee3fc28f8e?w=600&q=80"),
   ("backwater", "https://images.unsplash.com/photo-1602216056096-3b40cc0c9944?w=600&q=80"),
   ("snow", "https://images.unsplash.com/photo-1558618666-fcd25c85cd64?w=600&q=80"),
   ("river", "https://images.unsplash.com/photo-1590073242678-70ee3fc28f8e?w=600&q=80"),
   ("palace", "https://images.unsplash.com/photo-1524492412937-b28074a5d7da?w=600&q=80"),
   ("fort", "https://images.unsplash.com/photo-1524492412937-b28074a5d7da?w=600&q=80")]

/-- The value of `DESTINATION_IMAGES.default`. -/
def defaultImage : String := (DESTINATION_IMAGES.lookup "default").getD ""

/-- The value of `s.includes(k)`: `k` occurs in `s` as a run of consecutive
characters. -/
def includes : List Char → List Char → Bool
  | [], k => k.isEmpty
  | c :: cs, k => k.isPrefixOf (c :: cs) || includes cs k

/-- The characters of the class of the split pattern: white space, comma,
hyphen and slash. -/
def isSeparator (c : Char) : Bool := isWhiteSpace c || c = ',' || c = '-' || c = '/'

/-- The pieces of the split of `getDestinationImage`, on runs of separators,
after the piece `cur` already read (in reverse); `inRun` tells that the last
character was a separator. -/
def splitFrom (inRun : Bool) (cur : List Char) : List Char → List (List Char)
  | [] => [cur.reverse]
  | c :: cs =>
    if isSeparator c then
      if inRun then splitFrom true [] cs else cur.reverse :: splitFrom true [] cs
    else splitFrom false (c :: cur) cs

/-- The value of `s.split(...)` with the pattern of `getDestinationImage`: the
pieces between the runs of separators, an empty piece included when the string
starts or ends with one. -/
def split (s : List Char) : List (List Char) := splitFrom false [] s

/-- The string `combined` of `getDestinationImage`: name, a space and the
keyword (the empty string when it is absent or empty), in lower case. -/
def combinedOf (toLowerCase : List Char → List Char) (name : String)
    (imageKeyword : Option String) : List Char :=
  toLowerCase (name.data ++ ' ' :: (imageKeyword.getD "").data)

/-- The first loop of `getDestinationImage`: the first entry other than
`default` whose key occurs in `combined`. -/
def directMatch (combined : List Char) : Option (String × String) :=
  DESTINATION_IMAGES.find? (fun e => e.1 != "default" && includes combined e.1.data)

/-- The array `words` of `getDestinationImage`. -/
def words (combined : List Char) : List (List Char) :=
  (split combined).filter (fun w => decide (2 < jsLength w))

/-- The second loop of `getDestinationImage`: for each word in turn, the first
entry other than `default` whose key contains the word or occurs in it. -/
def wordMatch (combined : List Char) : Option (String × String) :=
  (words combined).findSome? (fun word =>
    DESTINATION_IMAGES.find? (fun e =>
      e.1 != "default" && (includes e.1.data word || includes word e.1.data)))

/-- The function `getDestinationImage`. -/
def getDestinationImage (toLowerCase : List Char → List Char) (name : String)
    (imageKeyword : Option String) : String :=
  match directMatch (combinedOf toLowerCase name imageKeyword) with
  | some e => e.2
  | none =>
    match wordMatch (combinedOf toLowerCase name imageKeyword) with
    | some e => e.2
    | none => defaultImage

/-- The lower case of an ASCII character. -/
def asciiLower (c : Char) : Char :=
  if 65 ≤ c.toNat ∧ c.toNat ≤ 90 then Char.ofNat (c.toNat + 32) else c

/-- The function `toLowerCase` on strings of ASCII characters, where it maps `A`
to `Z` to `a` to `z` and nothing else. -/
def asciiToLowerCase (s : List Char) : List Char := s.map asciiLower

/-- A function agrees with `toLowerCase` on the ASCII strings. -/
def LowersAscii (toLowerCase : List Char → List Char) : Prop :=
  ∀ s : List Char, (∀ c ∈ s, c.toNat < 128) → toLowerCase s = asciiToLowerCase s

/-- The generic category keywords that end the table. -/
def genericKeywords : List String :=
  ["mountain", "hill", "beach", "coastal", "desert", "forest", "island", "heritage", "waterfall", "temple", "city", "lake", "wildlife", "safari", "adventure", "backwater", "snow", "river", "palace", "fort"]

/-- The pairs of a word and an entry other than `default`, the words in their
order of occurrence and, for each word, the entries in the order of the table. -/
def wordEntryPairs (combined : List Char) : List (List Char × (String × String)) :=
  (words combined).flatMap (fun word =>
    (DESTINATION_IMAGES.filter (fun e => e.1 != "default")).map (fun e => (word, e)))

/-- The events of a selection made while a timer is pending: on step 7 a lookup
for "ch" is answered with one suggestion, then "che" is typed and, before its
timer fires, the suggestion is clicked. -/
def selectAfterTyping : List Action :=
  toStepSeven ++
    [.ui (.locationInput "ch"), .elapse 400, .suggestionsArrive ["Chennai"],
     .ui (.locationInput "che"), .ui (.suggestionItem "Chennai")]

/-- The card that holds a control that writes the record: the step on which it
is shown. -/
def Control.card : Control → Option Int
  | .nameInput _ => some 1
  | .budgetInput _ => some 2
  | .currencySelect _ => some 2
  | .travelTypeCard _ => some 3
  | .groupSizeInput _ => some 3
  | .scopeCard _ => some 4
  | .numDaysInput _ => some 5
  | .dayPreset _ => some 5
  | .foodCard _ => some 6
  | .locationInput _ => some 7
  | .locationFocus => some 7
  | .suggestionItem _ => some 7
  | .outsideMouseDown => some 7
  | .mediumCard _ => some 8
  | .styleTag _ => some 9
  | _ => none

/-- The predicate of every step before the current one holds for the record. -/
def PassedSteps (s : WizardState) : Prop :=
  ∀ j : Int, 1 ≤ j → j < s.currentStep → canProceed j s.formData = true

/-- All nine step predicates hold for the record. -/
def ValidRecord (r : FormData) : Prop :=
  ∀ j : Int, 1 ≤ j → j ≤ 9 → canProceed j r = true

/-- Every payload handed to the recommendation lookup was built from a record
for which all nine step predicates hold. -/
def SubmittedValid (s : WizardState) : Prop :=
  ∀ p ∈ s.requests, ∃ r, ValidRecord r ∧ p = buildPayload r

/-- The second loop of `getDestinationImage` with the test "the keyword
contains the word" alone. -/
def wordMatchKeywordOnly (combined : List Char) : Option (String × String) :=
  (words combined).findSome? (fun word =>
    DESTINATION_IMAGES.find? (fun e => e.1 != "default" && includes e.1.data word))

/-- The variant of `getDestinationImage` whose second loop tests only whether
the keyword contains the word. -/
def getDestinationImageKeywordOnly (toLowerCase : List Char → List Char) (name : String)
    (imageKeyword : Option String) : String :=
  match directMatch (combinedOf toLowerCase name imageKeyword) with
  | some e => e.2
  | none =>
    match wordMatchKeywordOnly (combinedOf toLowerCase name imageKeyword) with
    | some e => e.2
    | none => defaultImage

/-- The separators the specification names for the second pass: white space, a
comma, a hyphen or a slash. -/
def specSeparator (c : Char) : Bool := isWhiteSpace c || decide (c ∈ [',', '-', '/'])

/-- The tokens of `combined` in the words of the specification: `combined` is cut
at every separator, and the pieces of length at most 2 (the empty pieces
between two adjacent separators among them) are discarded. -/
def specTokens (combined : List Char) : List (List Char) :=
  (combined.splitOnP specSeparator).filter (fun w => !decide (jsLength w ≤ 2))

/-- The pairs of a token and a keyword in the words of the specification: the
tokens in their order of occurrence as the outer loop, the keywords in the order
of the table as the inner loop. -/
def specTokenPairs (combined : List Char) : List (List Char × (String × String)) :=
  (specTokens combined).flatMap (fun token =>
    (DESTINATION_IMAGES.filter (fun e => e.1 != "default")).map (fun e => (token, e)))

/-! ## The validator -/

lemma gtZero_iff_positive (x : JSNumber) : x.gtZero = true ↔ x.Positive := by
  cases x with
  | nan => simp [JSNumber.gtZero, JSNumber.Positive, JSNumber.toRat]
  | posInf => simp [JSNumber.gtZero, JSNumber.Positive]
  | negInf => simp [JSNumber.gtZero, JSNumber.Positive, JSNumber.toRat]
  | fin neg m e =>
    have h2 : (0 : ℚ) < 2 ^ e := zpow_pos (by norm_num) e
    cases neg with
    | true =>
      have hle : -1 * (m : ℚ) * 2 ^ e ≤ 0 := by
        have hm : (0 : ℚ) ≤ (m : ℚ) := Nat.cast_nonneg m
        nlinarith [mul_nonneg hm h2.le]
      simp only [JSNumber.gtZero, JSNumber.Positive, JSNumber.toRat, Bool.not_true,
        Bool.false_and, if_true]
      constructor
      · intro h
        cases h
      · rintro (h | ⟨q, hq, hpos⟩)
        · cases h
        · simp only [Option.some.injEq] at hq
          rw [← hq] at hpos
          exact absurd hpos (not_lt.mpr hle)
    | false =>
      simp only [JSNumber.gtZero, JSNumber.Positive, JSNumber.toRat, Bool.not_false,
        Bool.true_and, decide_eq_true_eq, Bool.false_eq_true, if_false, one_mul]
      constructor
      · intro hm
        refine Or.inr ⟨(m : ℚ) * 2 ^ e, rfl, ?_⟩
        exact mul_pos (by exact_mod_cast hm) h2
      · rintro (h | ⟨q, hq, hpos⟩)
        · cases h
        · simp only [Option.some.injEq] at hq
          rw [← hq] at hpos
          by_contra hm
          have : m = 0 := by omega
          subst this
          simp at hpos

/-- C1. For every step `s` in 1..9 and every record, `canProceed` at step `s` is
true exactly when the predicate of the step table holds for `s` and false
otherwise, and its result is the same on two records that agree on the fields
the table names for `s`. -/
theorem canProceed_iff_stepTable (s : Int) (r : FormData) (h1 : 1 ≤ s) (h9 : s ≤ 9) :
    (canProceed s r = true ↔ stepTable s r) ∧
    (canProceed s r = false ↔ ¬ stepTable s r) ∧
    ∀ r' : FormData, (∀ f ∈ stepFields s, r'.get f = r.get f) →
      canProceed s r' = canProceed s r := by
  have key : canProceed s r = true ↔ stepTable s r := by
    interval_cases s <;>
      simp [canProceed, stepTable, IsSet, gtZero_iff_positive, List.length_pos]
  refine ⟨key, ?_, ?_⟩
  · rw [← key]
    simp
  · intro r' h
    interval_cases s <;>
      simp [stepFields, FormData.get] at h <;>
      simp [canProceed, h]

/-- Witness for C1: step 3 on a group record with group size 4. -/
theorem canProceed_iff_stepTable_witness :
    (canProceed 3 { initialFormData with travel_type := "group", group_size := "4" } = true ↔
      stepTable 3 { initialFormData with travel_type := "group", group_size := "4" }) ∧
    (canProceed 3 { initialFormData with travel_type := "group", group_size := "4" } = false ↔
      ¬ stepTable 3 { initialFormData with travel_type := "group", group_size := "4" }) ∧
    ∀ r' : FormData,
      (∀ f ∈ stepFields 3,
        r'.get f = FormData.get { initialFormData with travel_type := "group", group_size := "4" } f) →
      canProceed 3 r' =
        canProceed 3 { initialFormData with travel_type := "group", group_size := "4" } :=
  canProceed_iff_stepTable 3 _ (by decide) (by decide)

/-! ## Moving between the steps -/

/-- C2. The Continue button is guarded by the validator: on every state with
`currentStep` in 1..9, if `canProceed` is false the click changes nothing at
all, and if it is true `currentStep` becomes `currentStep + 1`, capped at 9,
and the record is unchanged; the click is the transition of the component
whenever the wizard view is displayed. -/
theorem advance_guarded (s : WizardState) (h1 : 1 ≤ s.currentStep) (h9 : s.currentStep ≤ 9) :
    (canProceed s.currentStep s.formData = false → click s .continueButton = s) ∧
    (canProceed s.currentStep s.formData = true →
      (click s .continueButton).currentStep = min (s.currentStep + 1) 9 ∧
      (click s .continueButton).formData = s.formData) ∧
    (s.loading = false → s.navigated = false →
      step s (.ui .continueButton) = click s .continueButton) := by
  refine ⟨?_, ?_, ?_⟩
  · intro h
    simp [click, enabled, h]
  · intro h
    obtain ⟨step, r⟩ := s
    simp only at h1 h9
    interval_cases step <;> simp [click, enabled, fire, continueTarget, h]
  · intro hl hn
    simp [step, hl, hn]

/-- Witness for C2: the initial state, on step 1 with an empty name. -/
theorem advance_guarded_witness :
    (canProceed initialState.currentStep initialState.formData = false →
      click initialState .continueButton = initialState) ∧
    (canProceed initialState.currentStep initialState.formData = true →
      (click initialState .continueButton).currentStep = min (initialState.currentStep + 1) 9 ∧
      (click initialState .continueButton).formData = initialState.formData) ∧
    (initialState.loading = false → initialState.navigated = false →
      step initialState (.ui .continueButton) = click initialState .continueButton) :=
  advance_guarded initialState (by decide) (by decide)

lemma fetchSuggestions_currentStep (s : WizardState) (q : String) :
    (fetchSuggestions s q).currentStep = s.currentStep := by
  unfold fetchSuggestions
  split <;> rfl

lemma foldl_fetchSuggestions_currentStep (ts : List Timer) (s : WizardState) :
    (ts.foldl (fun acc t => fetchSuggestions acc t.query) s).currentStep = s.currentStep := by
  induction ts generalizing s with
  | nil => rfl
  | cons t ts ih => simp only [List.foldl_cons, ih, fetchSuggestions_currentStep]

lemma fireDue_currentStep (s : WizardState) : (fireDue s).currentStep = s.currentStep := by
  unfold fireDue
  rw [foldl_fetchSuggestions_currentStep]

lemma step_currentStep_range (s : WizardState) (a : Action)
    (h : 1 ≤ s.currentStep ∧ s.currentStep ≤ 9) :
    1 ≤ (step s a).currentStep ∧ (step s a).currentStep ≤ 9 := by
  obtain ⟨h1, h9⟩ := h
  unfold step
  split
  · exact ⟨h1, h9⟩
  · cases a with
    | ui c =>
      simp only
      split
      · exact ⟨h1, h9⟩
      · unfold click
        split
        · cases c <;>
            simp only [fire, handleLocationChange, selectSuggestion, handleConfirm] <;>
            try exact ⟨h1, h9⟩
          · split <;> exact ⟨h1, h9⟩
          · obtain ⟨step, r⟩ := s
            simp only at h1 h9 ⊢
            interval_cases step <;> simp [continueTarget]
          · obtain ⟨step, r⟩ := s
            simp only at h1 h9 ⊢
            interval_cases step <;> simp [backTarget]
        · exact ⟨h1, h9⟩
    | elapse dt =>
      simp only [fireDue_currentStep]
      exact ⟨h1, h9⟩
    | suggestionsArrive l =>
      simp only
      split <;> exact ⟨h1, h9⟩
    | suggestionsFail =>
      simp only
      split <;> exact ⟨h1, h9⟩
    | recommendationsArrive =>
      simp only
      split <;> exact ⟨h1, h9⟩
    | recommendationsFail =>
      simp only
      split <;> exact ⟨h1, h9⟩

lemma run_currentStep_range (as : List Action) (s : WizardState)
    (h : 1 ≤ s.currentStep ∧ s.currentStep ≤ 9) :
    1 ≤ (run s as).currentStep ∧ (run s as).currentStep ≤ 9 := by
  induction as generalizing s with
  | nil => exact h
  | cons a as ih => exact ih (step s a) (step_currentStep_range s a h)

/-- C3. In every state reached from the initial state by any sequence of user
events, timer firings and lookup answers, `currentStep` lies in 1..9. -/
theorem currentStep_in_range (as : List Action) :
    1 ≤ (run initialState as).currentStep ∧ (run initialState as).currentStep ≤ 9 :=
  run_currentStep_range as initialState (by decide)

/-- C4. The Back button is unguarded and loses no data: on every state with
`currentStep` in 1..9, whatever the validator says, the click sets `currentStep`
to `currentStep - 1`, floored at 1, and leaves the record unchanged; the click
is the transition of the component whenever the wizard view is displayed. -/
theorem retreat_unguarded (s : WizardState) (h1 : 1 ≤ s.currentStep) (h9 : s.currentStep ≤ 9) :
    (click s .backButton).currentStep = max (s.currentStep - 1) 1 ∧
    (click s .backButton).formData = s.formData ∧
    (s.loading = false → s.navigated = false →
      step s (.ui .backButton) = click s .backButton) := by
  refine ⟨?_, ?_, ?_⟩
  · obtain ⟨step, r⟩ := s
    simp only at h1 h9
    interval_cases step <;> simp [click, enabled, fire, backTarget]
  · obtain ⟨step, r⟩ := s
    simp only at h1 h9
    interval_cases step <;> simp [click, enabled, fire, backTarget]
  · intro hl hn
    simp [step, hl, hn]

/-- Witness for C4: step 2 with an empty budget, where the validator is false. -/
theorem retreat_unguarded_witness :
    canProceed 2 initialFormData = false ∧
    (click { initialState with currentStep := 2 } .backButton).currentStep = max (2 - 1) 1 ∧
    (click { initialState with currentStep := 2 } .backButton).formData = initialFormData :=
  ⟨by decide,
   (retreat_unguarded { initialState with currentStep := 2 } (by decide) (by decide)).1,
   (retreat_unguarded { initialState with currentStep := 2 } (by decide) (by decide)).2.1⟩

/-! ## Writing the record -/

/-- C5. Selecting `solo` stores `travel_type = 'solo'` and `group_size = '1'`
in one write, on every state, whatever the group size was, and without moving
`currentStep`; the card is live on step 3; and the payload of every record whose
`travel_type` is `solo` has `group_size = 1`. -/
theorem solo_forces_group_size_one (s : WizardState) (r : FormData)
    (hr : r.travel_type = "solo") :
    (fire s (.travelTypeCard "solo")).formData.travel_type = "solo" ∧
    (fire s (.travelTypeCard "solo")).formData.group_size = "1" ∧
    (fire s (.travelTypeCard "solo")).currentStep = s.currentStep ∧
    (s.currentStep = 3 → click s (.travelTypeCard "solo") = fire s (.travelTypeCard "solo")) ∧
    (buildPayload r).group_size = .ofNat 1 ∧
    (JSNumber.ofNat 1).toRat = some 1 := by
  refine ⟨rfl, rfl, rfl, ?_, ?_, ?_⟩
  · intro h3
    simp [click, enabled, h3, travelTypeOptions]
  · simp [buildPayload, hr]
  · rw [show JSNumber.ofNat 1 = .fin false 1 0 from by decide]
    norm_num [JSNumber.toRat]

/-- Witness for C5: a group record of size 4 on step 3, and the scenario record. -/
theorem solo_forces_group_size_one_witness :
    arjunRecord.travel_type = "solo" ∧
    (fire { initialState with
            currentStep := 3
            formData := { initialFormData with travel_type := "group", group_size := "4" } }
        (.travelTypeCard "solo")).formData.group_size = "1" ∧
    (buildPayload arjunRecord).group_size = .ofNat 1 :=
  ⟨rfl,
   (solo_forces_group_size_one
      { initialState with
        currentStep := 3
        formData := { initialFormData with travel_type := "group", group_size := "4" } }
      arjunRecord rfl).2.1,
   (solo_forces_group_size_one initialState arjunRecord rfl).2.2.2.2.1⟩

/-- C6, as stated, fails: on step 3 of a group record with group size `'4'`,
selecting `group` again empties `group_size`. -/
theorem group_write_resets_group_size :
    (click { initialState with
             currentStep := 3
             formData := { initialFormData with travel_type := "group", group_size := "4" } }
        (.travelTypeCard "group")).formData.group_size = "" ∧
    (click { initialState with
             currentStep := 3
             formData := { initialFormData with travel_type := "group", group_size := "4" } }
        (.travelTypeCard "group")).formData.group_size ≠ "4" := by
  decide

/-- C6, amended. The handler of a control that writes field `f` stores the value
of its event in `f` as it is, leaves `currentStep` unchanged, and leaves every
other field unchanged, with one exception: a write of `travel_type` also writes
`group_size`, `'1'` when the value is `solo` and the empty string otherwise. -/
theorem field_write_frame (s : WizardState) (c : Control) (f : Field)
    (ht : c.target = some f) :
    (∀ v, c.value = some v → (fire s c).formData.get f = v) ∧
    (fire s c).currentStep = s.currentStep ∧
    ∀ g, g ≠ f →
      (fire s c).formData.get g =
        if f = .travel_type ∧ g = .group_size then
          .text (if c.value = some (.text "solo") then "1" else "")
        else s.formData.get g := by
  cases c <;> simp only [Control.target, Option.some.injEq] at ht <;>
    first
    | exact absurd ht (by simp)
    | (subst ht
       refine ⟨?_, ?_, ?_⟩
       · intro v hv
         simp only [Control.value, Option.some.injEq] at hv
         first
         | exact absurd hv (by simp)
         | (subst hv; rfl)
       · rfl
       · intro g hg
         cases g <;>
           simp [fire, handleLocationChange, selectSuggestion, toggleStyle, FormData.get,
             Control.value] at hg ⊢)

/-- Witness for C6, amended: typing a group size on the initial state. -/
theorem field_write_frame_witness :
    (Control.groupSizeInput "4").target = some .group_size ∧
    (fire initialState (.groupSizeInput "4")).formData.get .group_size = .text "4" ∧
    (fire initialState (.groupSizeInput "4")).formData.get .currency = .text "INR" :=
  ⟨rfl,
   (field_write_frame initialState (.groupSizeInput "4") .group_size rfl).1 _ rfl,
   (field_write_frame initialState (.groupSizeInput "4") .group_size rfl).2.2 .currency
     (by decide)⟩

/-! ## Building and submitting the payload -/

/-- C7. For every state, `handleConfirm` hands one payload to `setUserPrefs` and
to the recommendation lookup, and that payload is the record with `budget`
replaced by `parseFloat` of it, `num_days` by `parseInt` of it, `group_size` by
`1` when `travel_type` is `solo` and by `parseInt` of it otherwise; the other
eight fields are copied. -/
theorem payload_of_record (s : WizardState) :
    (handleConfirm s).userPrefs = some (buildPayload s.formData) ∧
    (handleConfirm s).requests = s.requests ++ [buildPayload s.formData] ∧
    (buildPayload s.formData).budget = parseFloatStr s.formData.budget.data ∧
    (buildPayload s.formData).num_days = s.formData.num_days.parseInt ∧
    (buildPayload s.formData).group_size =
      (if s.formData.travel_type = "solo" then JSNumber.ofNat 1
       else parseIntStr s.formData.group_size.data) ∧
    (buildPayload s.formData).name = s.formData.name ∧
    (buildPayload s.formData).currency = s.formData.currency ∧
    (buildPayload s.formData).travel_type = s.formData.travel_type ∧
    (buildPayload s.formData).travel_scope = s.formData.travel_scope ∧
    (buildPayload s.formData).food_accommodation = s.formData.food_accommodation ∧
    (buildPayload s.formData).from_location = s.formData.from_location ∧
    (buildPayload s.formData).travel_medium = s.formData.travel_medium ∧
    (buildPayload s.formData).destination_styles = s.formData.destination_styles :=
  ⟨rfl, rfl, rfl, rfl, rfl, rfl, rfl, rfl, rfl, rfl, rfl, rfl, rfl⟩

/-- C8, as stated, fails: `handleConfirm` called on the initial record, whose
`destination_styles` is empty, builds a payload, hands it to the recommendation
lookup and sets no error. -/
theorem handleConfirm_validates_nothing :
    initialState.formData.destination_styles = [] ∧
    (handleConfirm initialState).requests = [buildPayload initialFormData] ∧
    (handleConfirm initialState).userPrefs = some (buildPayload initialFormData) ∧
    (handleConfirm initialState).error = "" := by
  decide

/-- C8, amended. The gate of the confirm action is the button, not
`handleConfirm`: on every state the click on the confirm button runs
`handleConfirm` when `currentStep` is 9 and `destination_styles` is non-empty,
and changes nothing otherwise (no payload, no lookup, no error message);
`handleConfirm` itself checks nothing and always calls the lookup with the
payload of the record. -/
theorem confirm_gated_by_button (s : WizardState) :
    click s .confirmButton =
      (if s.currentStep = 9 ∧ s.formData.destination_styles ≠ [] then handleConfirm s else s) ∧
    (handleConfirm s).requests = s.requests ++ [buildPayload s.formData] ∧
    (handleConfirm s).error = "" := by
  refine ⟨?_, rfl, rfl⟩
  by_cases h9 : s.currentStep = 9
  · by_cases hs : s.formData.destination_styles = []
    · simp [click, enabled, canProceed, h9, hs]
    · simp [click, enabled, fire, canProceed, h9, hs, List.length_pos]
  · simp [click, enabled, h9]

/-- C9. The end-to-end scenario: the scenario record satisfies the nine step
predicates; the wizard, started in its initial state and fed the scenario
events, stands on step 9 with exactly that record; the confirm click then
submits one payload, in which `group_size` is 1, `num_days` is 7 and `budget`
is 50000. -/
theorem arjun_scenario :
    (∀ k ∈ ([1, 2, 3, 4, 5, 6, 7, 8, 9] : List Int), canProceed k arjunRecord = true) ∧
    (run initialState arjunEvents).currentStep = 9 ∧
    (run initialState arjunEvents).formData = arjunRecord ∧
    (step (run initialState arjunEvents) (.ui .confirmButton)).requests =
      [buildPayload arjunRecord] ∧
    (buildPayload arjunRecord).group_size.toRat = some 1 ∧
    (buildPayload arjunRecord).num_days.toRat = some 7 ∧
    (buildPayload arjunRecord).budget.toRat = some 50000 := by
  refine ⟨by decide, by decide, by decide, by decide, ?_, ?_, ?_⟩
  · rw [show (buildPayload arjunRecord).group_size = .fin false 1 0 from by decide]
    norm_num [JSNumber.toRat]
  · rw [show (buildPayload arjunRecord).num_days = .fin false 7 0 from by decide]
    norm_num [JSNumber.toRat]
  · rw [show (buildPayload arjunRecord).budget = .fin false 3125 4 from by decide]
    norm_num [JSNumber.toRat]

/-- C10, on the code: a group record passes step 3 with group size `'1'` and
with `'0.5'`, and a wizard run that types either one submits a payload with
`travel_type = 'group'` and `group_size` 1, respectively 0. -/
theorem group_size_below_two_accepted :
    canProceed 3 { initialFormData with travel_type := "group", group_size := "1" } = true ∧
    canProceed 3 { initialFormData with travel_type := "group", group_size := "0.5" } = true ∧
    (run initialState (groupEvents "1")).requests.map (fun p => (p.travel_type, p.group_size)) =
      [("group", .fin false 1 0)] ∧
    (run initialState (groupEvents "0.5")).requests.map (fun p => (p.travel_type, p.group_size)) =
      [("group", .fin false 0 0)] := by
  decide

/-- C11, on the code: the scenario record with `num_days = '400'` satisfies the
nine step predicates and its payload has `num_days` 400; with `'0.5'` step 5 is
satisfied as well and the payload has `num_days` 0; the wizard run that types
either one submits that payload. -/
theorem num_days_out_of_range_accepted :
    (∀ k ∈ ([1, 2, 3, 4, 5, 6, 7, 8, 9] : List Int),
      canProceed k { arjunRecord with num_days := .str "400" } = true) ∧
    (buildPayload { arjunRecord with num_days := .str "400" }).num_days.toRat = some 400 ∧
    (∀ k ∈ ([1, 2, 3, 4, 5, 6, 7, 8, 9] : List Int),
      canProceed k { arjunRecord with num_days := .str "0.5" } = true) ∧
    (buildPayload { arjunRecord with num_days := .str "0.5" }).num_days.toRat = some 0 ∧
    (run initialState (daysEvents "400")).requests =
      [buildPayload { arjunRecord with num_days := .str "400" }] ∧
    (run initialState (daysEvents "0.5")).requests =
      [buildPayload { arjunRecord with num_days := .str "0.5" }] := by
  refine ⟨by decide, ?_, by decide, ?_, by decide, by decide⟩
  · rw [show (buildPayload { arjunRecord with num_days := .str "400" }).num_days =
      .fin false 25 4 from by decide]
    norm_num [JSNumber.toRat]
  · rw [show (buildPayload { arjunRecord with num_days := .str "0.5" }).num_days =
      .fin false 0 0 from by decide]
    norm_num [JSNumber.toRat]

/-! ## The image resolver -/

lemma includes_iff (s k : List Char) : includes s k = true ↔ k <:+: s := by
  induction s with
  | nil => simp [includes, List.isEmpty_iff]
  | cons c cs ih =>
    simp only [includes, Bool.or_eq_true, List.isPrefixOf_iff_prefix, ih, List.infix_cons_iff]

lemma directMatch_eq_some (c : List Char) (e : String × String) (h : directMatch c = some e) :
    e.1 ≠ "default" ∧ e.1.data <:+: c ∧
    ∃ pre post, DESTINATION_IMAGES = pre ++ e :: post ∧
      ∀ x ∈ pre, x.1 ≠ "default" → ¬ x.1.data <:+: c := by
  unfold directMatch at h
  rw [List.find?_eq_some] at h
  obtain ⟨hp, pre, post, hidx, hpre⟩ := h
  simp only [Bool.and_eq_true, bne_iff_ne, ne_eq, includes_iff] at hp
  refine ⟨hp.1, hp.2, pre, post, hidx, ?_⟩
  intro x hx hd hsub
  have := hpre x hx
  simp [hd, (includes_iff c x.1.data).mpr hsub] at this

lemma directMatch_eq_none (c : List Char) (h : directMatch c = none) :
    ∀ e ∈ DESTINATION_IMAGES, e.1 ≠ "default" → ¬ e.1.data <:+: c := by
  unfold directMatch at h
  rw [List.find?_eq_none] at h
  intro e he hd hsub
  apply h e he
  simp [hd, (includes_iff c e.1.data).mpr hsub]

lemma directMatch_isSome (c : List Char)
    (h : ∃ e ∈ DESTINATION_IMAGES, e.1 ≠ "default" ∧ e.1.data <:+: c) :
    ∃ e, directMatch c = some e := by
  obtain ⟨e, he, hd, hsub⟩ := h
  cases hm : directMatch c with
  | some x => exact ⟨x, rfl⟩
  | none => exact absurd hsub (directMatch_eq_none c hm e he hd)

/-- C12. Pass 1: for every name and keyword hint, and whatever `toLowerCase`
is, if some keyword of the table other than `default` occurs in `combined`, then
`getDestinationImage` returns the image of the first such keyword in the order
of the table: the table splits at an entry whose keyword occurs in `combined`,
no keyword before it does, and its image is the result. -/
theorem pass1_first_keyword (toLowerCase : List Char → List Char) (name : String)
    (imageKeyword : Option String)
    (h : ∃ e ∈ DESTINATION_IMAGES,
      e.1 ≠ "default" ∧ e.1.data <:+: combinedOf toLowerCase name imageKeyword) :
    ∃ pre e post, DESTINATION_IMAGES = pre ++ e :: post ∧
      e.1 ≠ "default" ∧ e.1.data <:+: combinedOf toLowerCase name imageKeyword ∧
      (∀ x ∈ pre, x.1 ≠ "default" → ¬ x.1.data <:+: combinedOf toLowerCase name imageKeyword) ∧
      getDestinationImage toLowerCase name imageKeyword = e.2 := by
  obtain ⟨e, hm⟩ := directMatch_isSome _ h
  obtain ⟨hd, hsub, pre, post, hidx, hpre⟩ := directMatch_eq_some _ e hm
  exact ⟨pre, e, post, hidx, hd, hsub, hpre, by simp [getDestinationImage, hm]⟩

/-- Witness for C12: "Goa Beach", in which both `goa` and `beach` occur. -/
theorem pass1_first_keyword_witness :
    (∃ e ∈ DESTINATION_IMAGES,
      e.1 ≠ "default" ∧ e.1.data <:+: combinedOf asciiToLowerCase "Goa Beach" none) ∧
    ∃ pre e post, DESTINATION_IMAGES = pre ++ e :: post ∧
      e.1 ≠ "default" ∧ e.1.data <:+: combinedOf asciiToLowerCase "Goa Beach" none ∧
      (∀ x ∈ pre, x.1 ≠ "default" →
        ¬ x.1.data <:+: combinedOf asciiToLowerCase "Goa Beach" none) ∧
      getDestinationImage asciiToLowerCase "Goa Beach" none = e.2 :=
  have hex : ∃ e ∈ DESTINATION_IMAGES,
      e.1 ≠ "default" ∧ e.1.data <:+: combinedOf asciiToLowerCase "Goa Beach" none :=
    ⟨("beach", "https://images.unsplash.com/photo-1507525428034-b723cf961d3e?w=600&q=80"),
      by decide, by decide, (includes_iff _ _).mp (by decide)⟩
  ⟨hex, pass1_first_keyword asciiToLowerCase "Goa Beach" none hex⟩

lemma lowersAscii_asciiToLowerCase : LowersAscii asciiToLowerCase := fun _ _ => rfl

lemma getDestinationImage_ascii (toLowerCase : List Char → List Char)
    (hL : LowersAscii toLowerCase) (name : String) (imageKeyword : Option String)
    (h : ∀ c ∈ name.data ++ ' ' :: (imageKeyword.getD "").data, c.toNat < 128) :
    combinedOf toLowerCase name imageKeyword = combinedOf asciiToLowerCase name imageKeyword ∧
    getDestinationImage toLowerCase name imageKeyword =
      getDestinationImage asciiToLowerCase name imageKeyword := by
  have hc : combinedOf toLowerCase name imageKeyword =
      combinedOf asciiToLowerCase name imageKeyword := hL _ h
  exact ⟨hc, by simp only [getDestinationImage, hc]⟩

lemma generic_after_generic (pre post : List (String × String)) (e : String × String)
    (h : DESTINATION_IMAGES = pre ++ e :: post) (hg : e.1 ∈ genericKeywords) :
    ∀ x ∈ post, x.1 ∈ genericKeywords := by
  have hplace : ∀ x ∈ DESTINATION_IMAGES.take 80, x.1 ∉ genericKeywords := by decide
  have hgen : ∀ x ∈ DESTINATION_IMAGES.drop 80, x.1 ∈ genericKeywords := by decide
  have hsplit : DESTINATION_IMAGES.take 80 ++ DESTINATION_IMAGES.drop 80 = pre ++ e :: post := by
    rw [List.take_append_drop, h]
  rw [List.append_eq_append_iff] at hsplit
  intro x hx
  rcases hsplit with ⟨a, ha, hb⟩ | ⟨c, hc, hd⟩
  · apply hgen
    rw [hb]
    simp [hx]
  · cases c with
    | nil =>
      apply hgen
      simp only [List.nil_append] at hd
      have : post = (DESTINATION_IMAGES.drop 80).tail := by rw [← hd]; rfl
      rw [this] at hx
      exact List.mem_of_mem_tail hx
    | cons y c =>
      simp only [List.cons_append, List.cons.injEq] at hd
      exfalso
      apply hplace e _ hg
      rw [hc, hd.1]
      simp

/-- C13. Order priority: the last twenty entries of the table are the generic
category keywords and no entry before them is one, so every place name is
declared before every generic keyword; hence, whenever a place-name keyword
occurs in `combined` (a generic one may occur too), the result is the image of a
place-name keyword that occurs in `combined`; and for a `toLowerCase` that
lowers ASCII letters, the image for "Manali" is the one declared for `manali`,
which is not the one declared for `mountain`. -/
theorem place_names_before_generic (toLowerCase : List Char → List Char)
    (hL : LowersAscii toLowerCase) :
    (DESTINATION_IMAGES.drop 80).map Prod.fst = genericKeywords ∧
    (∀ e ∈ DESTINATION_IMAGES.take 80, e.1 ∉ genericKeywords) ∧
    (∀ (name : String) (imageKeyword : Option String),
      (∃ e ∈ DESTINATION_IMAGES, e.1 ≠ "default" ∧ e.1 ∉ genericKeywords ∧
        e.1.data <:+: combinedOf toLowerCase name imageKeyword) →
      ∃ e ∈ DESTINATION_IMAGES, e.1 ≠ "default" ∧ e.1 ∉ genericKeywords ∧
        e.1.data <:+: combinedOf toLowerCase name imageKeyword ∧
        getDestinationImage toLowerCase name imageKeyword = e.2) ∧
    DESTINATION_IMAGES.lookup "manali" =
      some (getDestinationImage toLowerCase "Manali" (some "")) ∧
    DESTINATION_IMAGES.lookup "mountain" ≠
      some (getDestinationImage toLowerCase "Manali" (some "")) := by
  refine ⟨by decide, by decide, ?_, ?_, ?_⟩
  · intro name imageKeyword ⟨e, he, hd, hng, hsub⟩
    obtain ⟨e0, hm⟩ := directMatch_isSome _ ⟨e, he, hd, hsub⟩
    obtain ⟨hd0, hsub0, pre, post, hidx, hpre⟩ := directMatch_eq_some _ e0 hm
    refine ⟨e0, ?_, hd0, ?_, hsub0, by simp [getDestinationImage, hm]⟩
    · rw [hidx]
      simp
    · intro hg0
      have hpost := generic_after_generic pre post e0 hidx hg0
      rw [hidx] at he
      simp only [List.mem_append, List.mem_cons] at he
      rcases he with h1 | h2 | h3
      · exact hpre e h1 hd hsub
      · exact hng (h2 ▸ hg0)
      · exact hng (hpost e h3)
  · rw [(getDestinationImage_ascii toLowerCase hL "Manali" (some "") (by decide)).2]
    decide
  · rw [(getDestinationImage_ascii toLowerCase hL "Manali" (some "") (by decide)).2]
    decide

/-- Witness for C13: the ASCII lower case. -/
theorem place_names_before_generic_witness :
    LowersAscii asciiToLowerCase ∧
    DESTINATION_IMAGES.lookup "manali" =
      some (getDestinationImage asciiToLowerCase "Manali" (some "")) ∧
    DESTINATION_IMAGES.lookup "mountain" ≠
      some (getDestinationImage asciiToLowerCase "Manali" (some "")) :=
  ⟨lowersAscii_asciiToLowerCase,
   (place_names_before_generic asciiToLowerCase lowersAscii_asciiToLowerCase).2.2.2⟩

lemma find?_pairs {α β : Type} (ws : List α) (es : List β) (q : α × β → Bool) :
    ((ws.flatMap (fun w => es.map (fun e => (w, e)))).find? q).map (fun p => p.2) =
      ws.findSome? (fun w => es.find? (fun e => q (w, e))) := by
  induction ws with
  | nil => rfl
  | cons w ws ih =>
    simp only [List.flatMap_cons, List.find?_append, List.find?_map, List.findSome?_cons]
    cases h : es.find? (fun e => q (w, e)) with
    | none =>
      have h' : List.find? (q ∘ fun e => (w, e)) es = none := h
      simp only [h', Option.map_none', Option.none_or]
      exact ih
    | some e =>
      have h' : List.find? (q ∘ fun e => (w, e)) es = some e := h
      simp [h']

lemma wordMatch_eq_pairs (c : List Char) :
    wordMatch c =
      ((wordEntryPairs c).find?
        (fun p => decide (p.1 <:+: p.2.1.data ∨ p.2.1.data <:+: p.1))).map (fun p => p.2) := by
  unfold wordMatch wordEntryPairs
  rw [find?_pairs]
  congr 1
  funext word
  rw [List.find?_filter]
  congr 1
  funext e
  have h : (includes e.1.data word || includes word e.1.data) =
      decide (word <:+: e.1.data ∨ e.1.data <:+: word) := by
    rw [Bool.eq_iff_iff]
    simp [includes_iff]
  rw [h, Bool.eq_iff_iff]
  simp

lemma isSeparator_eq_specSeparator : isSeparator = specSeparator := by
  funext c
  simp [isSeparator, specSeparator, Bool.or_assoc]

lemma splitFrom_filter (P : List Char → Bool) (hP : P [] = false) (rest : List Char) :
    (∀ cur, (splitFrom false cur rest).filter P =
      (List.splitOnP.go isSeparator rest cur).filter P) ∧
    (splitFrom true [] rest).filter P = (List.splitOnP.go isSeparator rest []).filter P := by
  induction rest with
  | nil => simp [splitFrom, List.splitOnP.go]
  | cons c cs ih =>
    obtain ⟨ih1, ih2⟩ := ih
    constructor
    · intro cur
      by_cases hc : isSeparator c = true
      · simp only [splitFrom, List.splitOnP.go, hc, if_true, Bool.false_eq_true, if_false,
          List.filter_cons, ih2]
      · simp only [splitFrom, List.splitOnP.go, hc, Bool.false_eq_true, if_false, ih1]
    · by_cases hc : isSeparator c = true
      · simp only [splitFrom, List.splitOnP.go, hc, if_true, List.filter_cons,
          List.reverse_nil, hP, Bool.false_eq_true, if_false, ih2]
      · simp only [splitFrom, List.splitOnP.go, hc, Bool.false_eq_true, if_false, ih1]

lemma words_eq_specTokens (c : List Char) : words c = specTokens c := by
  unfold words specTokens split List.splitOnP
  rw [← isSeparator_eq_specSeparator]
  have h := (splitFrom_filter (fun w => decide (2 < jsLength w)) (by decide) c).1 []
  rw [h]
  congr 1
  funext w
  rw [Bool.eq_iff_iff]
  simp only [decide_eq_true_eq, Bool.not_eq_true', decide_eq_false_iff_not, not_le]

lemma wordEntryPairs_eq_specTokenPairs (c : List Char) :
    wordEntryPairs c = specTokenPairs c := by
  unfold wordEntryPairs specTokenPairs
  rw [words_eq_specTokens]

/-- C14. Pass 2: for every name and keyword hint such that no keyword of the
table occurs in `combined`, the array `words` of the code is the list of tokens
the specification describes (`combined` split on runs of white space, comma,
hyphen and slash, the tokens of length at most 2 discarded), and the result is
the image of the first pair of such a token and a keyword, the tokens in order
of occurrence as the outer loop and the keywords in the order of the table as
the inner loop, such that the keyword contains the token or the token contains
the keyword; it is the default image when there is no such pair. -/
theorem pass2_first_pair (toLowerCase : List Char → List Char) (name : String)
    (imageKeyword : Option String)
    (hno : ∀ e ∈ DESTINATION_IMAGES, e.1 ≠ "default" →
      ¬ e.1.data <:+: combinedOf toLowerCase name imageKeyword) :
    words (combinedOf toLowerCase name imageKeyword) =
      specTokens (combinedOf toLowerCase name imageKeyword) ∧
    getDestinationImage toLowerCase name imageKeyword =
      match (specTokenPairs (combinedOf toLowerCase name imageKeyword)).find?
          (fun p => decide (p.1 <:+: p.2.1.data ∨ p.2.1.data <:+: p.1)) with
      | some p => p.2.2
      | none => defaultImage := by
  have h1 : directMatch (combinedOf toLowerCase name imageKeyword) = none := by
    cases hm : directMatch (combinedOf toLowerCase name imageKeyword) with
    | none => rfl
    | some e =>
      obtain ⟨hd, hsub, pre, post, hidx, -⟩ := directMatch_eq_some _ e hm
      exact absurd hsub (hno e (by rw [hidx]; simp) hd)
  refine ⟨words_eq_specTokens _, ?_⟩
  simp only [getDestinationImage, h1, wordMatch_eq_pairs, wordEntryPairs_eq_specTokenPairs]
  cases (specTokenPairs (combinedOf toLowerCase name imageKeyword)).find?
    (fun p => decide (p.1 <:+: p.2.1.data ∨ p.2.1.data <:+: p.1)) <;> rfl

/-- Witness for C14: "oa, hil--mana/xy". No keyword occurs in it. Cut at the
comma and space, the two hyphens and the slash it gives the pieces `oa`, `hil`,
`mana`, `xy` and an empty one; `oa` and `xy`, of length 2, are discarded, so the
words are `hil` and `mana`. The first word `hil` occurs in the late keyword
`hill`, the second word `mana` in the first keyword `manali`, and the discarded
piece `oa` occurs in `goa`; the result is the image declared for `hill`, not the
one for `manali` or `goa` and not the default: the earlier word wins over the
earlier entry. -/
theorem pass2_first_pair_witness :
    (∀ e ∈ DESTINATION_IMAGES, e.1 ≠ "default" →
      ¬ e.1.data <:+: combinedOf asciiToLowerCase "oa, hil--mana/xy" none) ∧
    words (combinedOf asciiToLowerCase "oa, hil--mana/xy" none) = ["hil".data, "mana".data] ∧
    specTokens (combinedOf asciiToLowerCase "oa, hil--mana/xy" none) =
      ["hil".data, "mana".data] ∧
    DESTINATION_IMAGES.lookup "hill" =
      some (getDestinationImage asciiToLowerCase "oa, hil--mana/xy" none) ∧
    DESTINATION_IMAGES.lookup "manali" ≠
      some (getDestinationImage asciiToLowerCase "oa, hil--mana/xy" none) ∧
    DESTINATION_IMAGES.lookup "goa" ≠
      some (getDestinationImage asciiToLowerCase "oa, hil--mana/xy" none) ∧
    getDestinationImage asciiToLowerCase "oa, hil--mana/xy" none ≠ defaultImage ∧
    (words (combinedOf asciiToLowerCase "oa, hil--mana/xy" none) =
        specTokens (combinedOf asciiToLowerCase "oa, hil--mana/xy" none) ∧
      getDestinationImage asciiToLowerCase "oa, hil--mana/xy" none =
        match (specTokenPairs (combinedOf asciiToLowerCase "oa, hil--mana/xy" none)).find?
            (fun p => decide (p.1 <:+: p.2.1.data ∨ p.2.1.data <:+: p.1)) with
        | some p => p.2.2
        | none => defaultImage) :=
  ⟨directMatch_eq_none _ (by decide), by decide, by decide, by decide, by decide, by decide,
   by decide,
   pass2_first_pair asciiToLowerCase "oa, hil--mana/xy" none
     (directMatch_eq_none _ (by decide))⟩

lemma wordMatch_eq_none (c : List Char) :
    wordMatch c = none ↔
      ∀ w ∈ words c, ∀ e ∈ DESTINATION_IMAGES, e.1 ≠ "default" →
        ¬ w <:+: e.1.data ∧ ¬ e.1.data <:+: w := by
  unfold wordMatch
  simp only [List.findSome?_eq_none_iff, List.find?_eq_none, Bool.and_eq_true, bne_iff_ne,
    ne_eq, Bool.or_eq_true, includes_iff, not_and, not_or]

/-- C15. Fallback: for every name and keyword hint such that no keyword of the
table occurs in `combined` and no word of `combined` contains or is contained in
a keyword, the result is the default image; and for a `toLowerCase` that lowers
ASCII letters, "Zzyxxq Nowhereland" is such an input and gets the default
image, the one declared under `default`. -/
theorem fallback_default (toLowerCase : List Char → List Char)
    (hL : LowersAscii toLowerCase) :
    (∀ (name : String) (imageKeyword : Option String),
      (∀ e ∈ DESTINATION_IMAGES, e.1 ≠ "default" →
        ¬ e.1.data <:+: combinedOf toLowerCase name imageKeyword) →
      (∀ w ∈ words (combinedOf toLowerCase name imageKeyword),
        ∀ e ∈ DESTINATION_IMAGES, e.1 ≠ "default" → ¬ w <:+: e.1.data ∧ ¬ e.1.data <:+: w) →
      getDestinationImage toLowerCase name imageKeyword = defaultImage) ∧
    (∀ e ∈ DESTINATION_IMAGES, e.1 ≠ "default" →
      ¬ e.1.data <:+: combinedOf toLowerCase "Zzyxxq Nowhereland" (some "")) ∧
    (∀ w ∈ words (combinedOf toLowerCase "Zzyxxq Nowhereland" (some "")),
      ∀ e ∈ DESTINATION_IMAGES, e.1 ≠ "default" → ¬ w <:+: e.1.data ∧ ¬ e.1.data <:+: w) ∧
    getDestinationImage toLowerCase "Zzyxxq Nowhereland" (some "") = defaultImage ∧
    DESTINATION_IMAGES.lookup "default" = some defaultImage := by
  have hz := getDestinationImage_ascii toLowerCase hL "Zzyxxq Nowhereland" (some "") (by decide)
  refine ⟨?_, ?_, ?_, ?_, by decide⟩
  · intro name imageKeyword h1 h2
    have hd : directMatch (combinedOf toLowerCase name imageKeyword) = none := by
      cases hm : directMatch (combinedOf toLowerCase name imageKeyword) with
      | none => rfl
      | some e =>
        obtain ⟨hd, hsub, pre, post, hidx, -⟩ := directMatch_eq_some _ e hm
        exact absurd hsub (h1 e (by rw [hidx]; simp) hd)
    have hw : wordMatch (combinedOf toLowerCase name imageKeyword) = none :=
      (wordMatch_eq_none _).mpr h2
    simp [getDestinationImage, hd, hw]
  · rw [hz.1]
    exact directMatch_eq_none _ (by decide)
  · rw [hz.1]
    exact (wordMatch_eq_none _).mp (by decide)
  · rw [hz.2]
    decide

/-- Witness for C15: the ASCII lower case. -/
theorem fallback_default_witness :
    LowersAscii asciiToLowerCase ∧
    getDestinationImage asciiToLowerCase "Zzyxxq Nowhereland" (some "") = defaultImage :=
  ⟨lowersAscii_asciiToLowerCase,
   (fallback_default asciiToLowerCase lowersAscii_asciiToLowerCase).2.2.2.1⟩

/-- C16. The resolver never fails: it is a total function, and for every
`toLowerCase`, name and keyword hint its result is one of the images stored in
the table (the default image is one of them); an absent hint gives the same
result as the empty hint. -/
theorem resolver_total (toLowerCase : List Char → List Char) (name : String)
    (imageKeyword : Option String) :
    getDestinationImage toLowerCase name imageKeyword ∈ DESTINATION_IMAGES.map Prod.snd ∧
    defaultImage ∈ DESTINATION_IMAGES.map Prod.snd ∧
    getDestinationImage toLowerCase name none = getDestinationImage toLowerCase name (some "") := by
  refine ⟨?_, by decide, rfl⟩
  unfold getDestinationImage
  cases hm : directMatch (combinedOf toLowerCase name imageKeyword) with
  | some e =>
    exact List.mem_map_of_mem _ (List.mem_of_find?_eq_some hm)
  | none =>
    cases hw : wordMatch (combinedOf toLowerCase name imageKeyword) with
    | some e =>
      obtain ⟨w, -, hf⟩ := List.exists_of_findSome?_eq_some hw
      exact List.mem_map_of_mem _ (List.mem_of_find?_eq_some hf)
    | none => decide

/-- C17, as stated, fails: for "Best Hill Station Trip" the keyword `hill` occurs
in `combined`, and pass 1 finds it. -/
theorem hill_found_in_pass1 :
    "hill".data <:+: combinedOf asciiToLowerCase "Best Hill Station Trip" (some "") ∧
    directMatch (combinedOf asciiToLowerCase "Best Hill Station Trip" (some "")) =
      some ("hill", "https://images.unsplash.com/photo-1506905925346-21bda4d32df4?w=600&q=80") :=
  ⟨(includes_iff _ _).mp (by decide), by decide⟩

/-- C17, amended. For a `toLowerCase` that lowers ASCII letters, the image for
"Best Hill Station Trip" is the one declared for `hill`, and it is found by
pass 1: `hill` occurs in `combined` and is the first keyword of the table that
does. -/
theorem hill_station_scenario (toLowerCase : List Char → List Char)
    (hL : LowersAscii toLowerCase) :
    DESTINATION_IMAGES.lookup "hill" =
      some (getDestinationImage toLowerCase "Best Hill Station Trip" (some "")) ∧
    "hill".data <:+: combinedOf toLowerCase "Best Hill Station Trip" (some "") ∧
    (directMatch (combinedOf toLowerCase "Best Hill Station Trip" (some ""))).map Prod.fst =
      some "hill" := by
  have hz :=
    getDestinationImage_ascii toLowerCase hL "Best Hill Station Trip" (some "") (by decide)
  rw [hz.1, hz.2]
  exact ⟨by decide, (includes_iff _ _).mp (by decide), by decide⟩

/-- Witness for C17, amended: the ASCII lower case. -/
theorem hill_station_scenario_witness :
    LowersAscii asciiToLowerCase ∧
    DESTINATION_IMAGES.lookup "hill" =
      some (getDestinationImage asciiToLowerCase "Best Hill Station Trip" (some "")) :=
  ⟨lowersAscii_asciiToLowerCase,
   (hill_station_scenario asciiToLowerCase lowersAscii_asciiToLowerCase).1⟩

lemma asciiLower_idem (c : Char) : asciiLower (asciiLower c) = asciiLower c := by
  unfold asciiLower
  by_cases h : 65 ≤ c.toNat ∧ c.toNat ≤ 90
  · simp only [h, and_self, if_true]
    obtain ⟨h1, h2⟩ := h
    generalize c.toNat = n at h1 h2
    interval_cases n <;> decide
  · simp only [h, if_false]

lemma asciiToLowerCase_idem (s : List Char) :
    asciiToLowerCase (asciiToLowerCase s) = asciiToLowerCase s := by
  simp [asciiToLowerCase, asciiLower_idem]

lemma asciiToLowerCase_space (a b : List Char) :
    asciiToLowerCase (a ++ ' ' :: b) = asciiToLowerCase a ++ ' ' :: asciiToLowerCase b := by
  have h : asciiLower ' ' = ' ' := by decide
  simp [asciiToLowerCase, h]

/-- C18. Case-insensitivity, for every `toLowerCase` with the two properties of
the built-in that matter here: lowering twice is lowering once, and the lower
case of `a`, a space and `b` is the lower case of `a`, a space and the lower
case of `b`.  For every name and keyword hint the result is the same on the
lowered name and hint, and two inputs whose names and hints have the same lower
case get the same image. -/
theorem resolver_case_insensitive (toLowerCase : List Char → List Char)
    (hidem : ∀ s, toLowerCase (toLowerCase s) = toLowerCase s)
    (hspace : ∀ a b, toLowerCase (a ++ ' ' :: b) = toLowerCase a ++ ' ' :: toLowerCase b)
    (name : String) (imageKeyword : Option String) :
    getDestinationImage toLowerCase name imageKeyword =
      getDestinationImage toLowerCase (String.mk (toLowerCase name.data))
        (imageKeyword.map (fun hint => String.mk (toLowerCase hint.data))) ∧
    ∀ (name2 : String) (imageKeyword2 : Option String),
      toLowerCase name2.data = toLowerCase name.data →
      toLowerCase (imageKeyword2.getD "").data = toLowerCase (imageKeyword.getD "").data →
      getDestinationImage toLowerCase name2 imageKeyword2 =
        getDestinationImage toLowerCase name imageKeyword := by
  have key : ∀ (n1 n2 : String) (k1 k2 : Option String),
      toLowerCase n1.data = toLowerCase n2.data →
      toLowerCase (k1.getD "").data = toLowerCase (k2.getD "").data →
      getDestinationImage toLowerCase n1 k1 = getDestinationImage toLowerCase n2 k2 := by
    intro n1 n2 k1 k2 hn hk
    have hc : combinedOf toLowerCase n1 k1 = combinedOf toLowerCase n2 k2 := by
      simp only [combinedOf, hspace, hn, hk]
    simp only [getDestinationImage, hc]
  refine ⟨?_, fun name2 imageKeyword2 hn hk => key _ _ _ _ hn hk⟩
  apply key
  · exact (hidem _).symm
  · cases imageKeyword with
    | none => rfl
    | some hint => exact (hidem _).symm

/-- Witness for C18: the ASCII lower case, on "MANALI" with the hint "Snow". -/
theorem resolver_case_insensitive_witness :
    (∀ s, asciiToLowerCase (asciiToLowerCase s) = asciiToLowerCase s) ∧
    (∀ a b, asciiToLowerCase (a ++ ' ' :: b) =
      asciiToLowerCase a ++ ' ' :: asciiToLowerCase b) ∧
    getDestinationImage asciiToLowerCase "MANALI" (some "Snow") =
      getDestinationImage asciiToLowerCase (String.mk (asciiToLowerCase "MANALI".data))
        ((some "Snow").map (fun hint => String.mk (asciiToLowerCase hint.data))) :=
  ⟨asciiToLowerCase_idem, asciiToLowerCase_space,
   (resolver_case_insensitive asciiToLowerCase asciiToLowerCase_idem asciiToLowerCase_space
      "MANALI" (some "Snow")).1⟩

/-! ## The suggestion timer -/

lemma fetchSuggestions_timers (s : WizardState) (q : String) :
    (fetchSuggestions s q).timers = s.timers ∧
    (fetchSuggestions s q).suggestionTimeout = s.suggestionTimeout := by
  unfold fetchSuggestions
  split <;> exact ⟨rfl, rfl⟩

lemma foldl_fetchSuggestions_timers (ts : List Timer) (s : WizardState) :
    (ts.foldl (fun acc t => fetchSuggestions acc t.query) s).timers = s.timers ∧
    (ts.foldl (fun acc t => fetchSuggestions acc t.query) s).suggestionTimeout =
      s.suggestionTimeout := by
  induction ts generalizing s with
  | nil => exact ⟨rfl, rfl⟩
  | cons t ts ih =>
    simp only [List.foldl_cons]
    rw [(ih _).1, (ih _).2]
    exact fetchSuggestions_timers s t.query

lemma clearTimeout_ref (ts : List Timer) (ref : Option Nat)
    (h : ∀ t ∈ ts, ref = some t.id) : clearTimeout ts ref = [] := by
  unfold clearTimeout
  rw [List.filter_eq_nil_iff]
  intro t ht
  simp [h t ht]

lemma fire_timerInv (s : WizardState) (c : Control) (h : TimerInv s) : TimerInv (fire s c) := by
  cases c <;> simp only [fire, selectSuggestion, handleConfirm] <;> try exact h
  · unfold handleLocationChange TimerInv
    simp only [clearTimeout_ref s.timers s.suggestionTimeout h.2, List.nil_append,
      List.length_singleton, le_refl, List.mem_singleton, true_and]
    intro t ht
    rw [ht]
  · split <;> exact h
  · split <;> exact h
  · split <;> exact h

lemma step_timerInv (s : WizardState) (a : Action) (h : TimerInv s) : TimerInv (step s a) := by
  unfold step
  split
  · exact h
  · cases a with
    | ui c =>
      simp only
      split
      · exact h
      · unfold click
        split
        · exact fire_timerInv s c h
        · exact h
    | elapse dt =>
      simp only [fireDue, TimerInv]
      rw [(foldl_fetchSuggestions_timers _ _).1, (foldl_fetchSuggestions_timers _ _).2]
      refine ⟨le_trans (List.length_filter_le _ _) h.1, ?_⟩
      intro t ht
      exact h.2 t (List.mem_of_mem_filter ht)
    | suggestionsArrive l =>
      simp only
      split <;> exact h
    | suggestionsFail =>
      simp only
      split <;> exact h
    | recommendationsArrive =>
      simp only
      split <;> exact h
    | recommendationsFail =>
      simp only
      split <;> exact h

lemma run_timerInv (as : List Action) (s : WizardState) (h : TimerInv s) :
    TimerInv (run s as) := by
  induction as generalizing s with
  | nil => exact h
  | cons a as ih => exact ih (step s a) (step_timerInv s a h)

lemma timerInv_initialState : TimerInv initialState := by
  simp [TimerInv, initialState]

lemma step_locationInput (s : WizardState) (h7 : s.currentStep = 7)
    (hl : s.loading = false) (hn : s.navigated = false) (hinv : TimerInv s) (q : String) :
    step s (.ui (.locationInput q)) =
      { s with
        locationQuery := q
        formData := { s.formData with from_location := q }
        timers := [{ id := s.nextTimerId, due := s.now + suggestionDelay, query := q }]
        suggestionTimeout := some s.nextTimerId
        nextTimerId := s.nextTimerId + 1 } := by
  simp [step, hn, hl, click, enabled, h7, fire, handleLocationChange,
    clearTimeout_ref _ _ hinv.2]

lemma step_elapse_one (s : WizardState) (hn : s.navigated = false) (t : Timer)
    (ht : s.timers = [t]) (d : Nat) :
    step s (.elapse d) =
      if t.due ≤ s.now + d then
        fetchSuggestions { s with now := s.now + d, timers := [] } t.query
      else { s with now := s.now + d } := by
  by_cases hd : t.due ≤ s.now + d
  · simp [step, hn, fireDue, ht, hd]
  · simp [step, hn, fireDue, ht, hd]

/-- C19, as stated, fails. A query of two spaces, typed on step 7, is passed to
the lookup when its timer fires; and typing "a" while suggestions are shown
leaves them shown: they are emptied only when the timer fires. -/
theorem blank_query_reaches_lookup :
    jsLength (trim "  ".data) < 2 ∧
    (run initialState (toStepSeven ++ [.ui (.locationInput "  "), .elapse 400])).lookups =
      ["  "] ∧
    (run initialState
      (toStepSeven ++ [.ui (.locationInput "ch"), .elapse 400, .suggestionsArrive ["Chennai"],
        .ui (.locationInput "a")])).suggestions = ["Chennai"] ∧
    (run initialState
      (toStepSeven ++ [.ui (.locationInput "ch"), .elapse 400, .suggestionsArrive ["Chennai"],
        .ui (.locationInput "a"), .elapse 400])).suggestions = [] := by
  decide

lemma locationInput_spec (s : WizardState) (h7 : s.currentStep = 7)
    (hl : s.loading = false) (hn : s.navigated = false) (hinv : TimerInv s) (q : String) :
    (step s (.ui (.locationInput q))).currentStep = 7 ∧
    (step s (.ui (.locationInput q))).loading = false ∧
    (step s (.ui (.locationInput q))).navigated = false ∧
    TimerInv (step s (.ui (.locationInput q))) ∧
    (step s (.ui (.locationInput q))).timers =
      [{ id := s.nextTimerId, due := s.now + suggestionDelay, query := q }] ∧
    (step s (.ui (.locationInput q))).now = s.now ∧
    (step s (.ui (.locationInput q))).lookups = s.lookups ∧
    (step s (.ui (.locationInput q))).suggestions = s.suggestions := by
  refine ⟨?_, ?_, ?_, step_timerInv s _ hinv, ?_, ?_, ?_, ?_⟩ <;>
    rw [step_locationInput s h7 hl hn hinv q]
  · exact h7
  · exact hl
  · exact hn

lemma elapse_spec (s : WizardState) (hn : s.navigated = false) (t : Timer)
    (ht : s.timers = [t]) (d : Nat) :
    (step s (.elapse d)).currentStep = s.currentStep ∧
    (step s (.elapse d)).loading = s.loading ∧
    (step s (.elapse d)).navigated = false ∧
    (step s (.elapse d)).now = s.now + d ∧
    (s.now + d < t.due →
      (step s (.elapse d)).timers = [t] ∧
      (step s (.elapse d)).lookups = s.lookups ∧
      (step s (.elapse d)).suggestions = s.suggestions) ∧
    (t.due ≤ s.now + d →
      (step s (.elapse d)).timers = [] ∧
      (step s (.elapse d)).lookups =
        (if jsLength t.query.data < 2 then s.lookups else s.lookups ++ [t.query]) ∧
      (step s (.elapse d)).suggestions =
        (if jsLength t.query.data < 2 then [] else s.suggestions)) := by
  rw [step_elapse_one s hn t ht d]
  by_cases hd : t.due ≤ s.now + d
  · rw [if_pos hd]
    unfold fetchSuggestions
    by_cases hq : jsLength t.query.data < 2
    · simp [hq, hn, hd, not_lt.mpr hd]
    · simp [hq, hn, hd, not_lt.mpr hd]
  · rw [if_neg hd]
    exact ⟨rfl, rfl, hn, rfl, fun _ => ⟨ht, rfl, rfl⟩, fun h => absurd h hd⟩

lemma three_inputs_one_lookup (s : WizardState) (h7 : s.currentStep = 7)
    (hl : s.loading = false) (hn : s.navigated = false) (hinv : TimerInv s)
    (d1 d2 d3 : Nat)
    (h1 : d1 < suggestionDelay) (h2 : d2 < suggestionDelay) (h3 : suggestionDelay ≤ d3) :
    (run s
      [.ui (.locationInput "a"), .elapse d1, .ui (.locationInput "ab"), .elapse d2,
       .ui (.locationInput "abc"), .elapse d3]).lookups = s.lookups ++ ["abc"] ∧
    (run s
      [.ui (.locationInput "a"), .elapse d1, .ui (.locationInput "ab"), .elapse d2,
       .ui (.locationInput "abc"), .elapse d3]).timers = [] := by
  simp only [run, List.foldl_cons, List.foldl_nil]
  obtain ⟨a7, al, an, ainv, atm, anow, alk, -⟩ := locationInput_spec s h7 hl hn hinv "a"
  generalize step s (.ui (.locationInput "a")) = sA at *
  obtain ⟨b7, bl, bn, bnow, bpend, -⟩ := elapse_spec sA an _ atm d1
  have binv := step_timerInv sA (.elapse d1) ainv
  obtain ⟨-, blk, -⟩ := bpend (by dsimp only; omega)
  generalize step sA (.elapse d1) = sB at *
  obtain ⟨c7, cl, cn, cinv, ctm, cnow, clk, -⟩ :=
    locationInput_spec sB (b7.trans a7) (bl.trans al) bn binv "ab"
  generalize step sB (.ui (.locationInput "ab")) = sC at *
  obtain ⟨e7, el, en, enow, epend, -⟩ := elapse_spec sC cn _ ctm d2
  have einv := step_timerInv sC (.elapse d2) cinv
  obtain ⟨-, elk, -⟩ := epend (by dsimp only; omega)
  generalize step sC (.elapse d2) = sE at *
  obtain ⟨f7, fl, fn, finv, ftm, fnow, flk, -⟩ :=
    locationInput_spec sE (e7.trans c7) (el.trans cl) en einv "abc"
  generalize step sE (.ui (.locationInput "abc")) = sF at *
  obtain ⟨-, -, -, -, -, gfire⟩ := elapse_spec sF fn _ ftm d3
  obtain ⟨gtm, glk, -⟩ := gfire (by dsimp only; omega)
  have hlen : ¬ jsLength "abc".data < 2 := by decide
  rw [gtm, glk]
  dsimp only
  rw [if_neg hlen, flk, elk, clk, blk, alk]
  exact ⟨rfl, rfl⟩

/-- C19, amended. In every reachable state that shows the card of step 7, typing
a query changes neither the suggestion list nor the lookups at the time of the
call, and nothing changes while less than 400 time units pass; when the timer
of the call fires, 400 time units after it, a query of fewer than 2 code units,
untrimmed, empties the suggestion list and is not passed to the lookup. -/
theorem short_query_cleared_by_timer (as : List Action) (q : String) (d : Nat)
    (h7 : (run initialState as).currentStep = 7)
    (hl : (run initialState as).loading = false)
    (hn : (run initialState as).navigated = false) :
    (step (run initialState as) (.ui (.locationInput q))).suggestions =
      (run initialState as).suggestions ∧
    (step (run initialState as) (.ui (.locationInput q))).lookups =
      (run initialState as).lookups ∧
    (d < suggestionDelay →
      (step (step (run initialState as) (.ui (.locationInput q))) (.elapse d)).suggestions =
        (run initialState as).suggestions ∧
      (step (step (run initialState as) (.ui (.locationInput q))) (.elapse d)).lookups =
        (run initialState as).lookups) ∧
    (suggestionDelay ≤ d → jsLength q.data < 2 →
      (step (step (run initialState as) (.ui (.locationInput q))) (.elapse d)).suggestions = [] ∧
      (step (step (run initialState as) (.ui (.locationInput q))) (.elapse d)).lookups =
        (run initialState as).lookups) := by
  have hinv := run_timerInv as initialState timerInv_initialState
  obtain ⟨-, -, an, -, atm, anow, alk, asg⟩ := locationInput_spec _ h7 hl hn hinv q
  refine ⟨asg, alk, ?_, ?_⟩
  · intro hd
    obtain ⟨-, -, -, -, pend, -⟩ := elapse_spec _ an _ atm d
    obtain ⟨-, plk, psg⟩ := pend (by dsimp only; omega)
    exact ⟨psg.trans asg, plk.trans alk⟩
  · intro hd hq
    obtain ⟨-, -, -, -, -, fired⟩ := elapse_spec _ an _ atm d
    obtain ⟨-, flk, fsg⟩ := fired (by dsimp only; omega)
    dsimp only at flk fsg
    rw [if_pos hq] at flk fsg
    exact ⟨fsg, flk.trans alk⟩

/-- Witness for C19, amended: the query "a" typed on reaching step 7, and 400
time units passing. -/
theorem short_query_cleared_by_timer_witness :
    (run initialState toStepSeven).currentStep = 7 ∧
    (run initialState toStepSeven).loading = false ∧
    (run initialState toStepSeven).navigated = false ∧
    jsLength "a".data < 2 ∧
    (step (step (run initialState toStepSeven) (.ui (.locationInput "a")))
      (.elapse 400)).suggestions = [] ∧
    (step (step (run initialState toStepSeven) (.ui (.locationInput "a")))
      (.elapse 400)).lookups = (run initialState toStepSeven).lookups :=
  ⟨by decide, by decide, by decide, by decide,
   (short_query_cleared_by_timer toStepSeven "a" 400 (by decide) (by decide) (by decide)).2.2.2
     (by decide) (by decide)⟩

/-- C20. Debounce coalescing. In every reachable state at most one timer is
pending.  In every reachable state that shows the card of step 7, typing a
query leaves exactly one timer pending, the new one, due 400 time units later
and carrying that query (the timer of the previous input is cancelled); and the
inputs "a", "ab", "abc", each less than 400 time units after the one before and
followed by at least 400 quiet time units, add exactly one lookup, for "abc". -/
theorem debounce_coalescing (as : List Action) (q : String) (d1 d2 d3 : Nat)
    (h7 : (run initialState as).currentStep = 7)
    (hl : (run initialState as).loading = false)
    (hn : (run initialState as).navigated = false)
    (h1 : d1 < suggestionDelay) (h2 : d2 < suggestionDelay) (h3 : suggestionDelay ≤ d3) :
    (∀ bs : List Action, (run initialState bs).timers.length ≤ 1) ∧
    (step (run initialState as) (.ui (.locationInput q))).timers =
      [{ id := (run initialState as).nextTimerId
         due := (run initialState as).now + suggestionDelay
         query := q }] ∧
    (run (run initialState as)
      [.ui (.locationInput "a"), .elapse d1, .ui (.locationInput "ab"), .elapse d2,
       .ui (.locationInput "abc"), .elapse d3]).lookups =
      (run initialState as).lookups ++ ["abc"] ∧
    (run (run initialState as)
      [.ui (.locationInput "a"), .elapse d1, .ui (.locationInput "ab"), .elapse d2,
       .ui (.locationInput "abc"), .elapse d3]).timers = [] := by
  have hinv := run_timerInv as initialState timerInv_initialState
  have h := three_inputs_one_lookup _ h7 hl hn hinv d1 d2 d3 h1 h2 h3
  exact ⟨fun bs => (run_timerInv bs initialState timerInv_initialState).1,
    (locationInput_spec _ h7 hl hn hinv q).2.2.2.2.1, h.1, h.2⟩

/-- Witness for C20: the three inputs on reaching step 7, 100, 399 and 400 time
units apart. -/
theorem debounce_coalescing_witness :
    (run initialState toStepSeven).currentStep = 7 ∧
    (run initialState toStepSeven).loading = false ∧
    (run initialState toStepSeven).navigated = false ∧
    (run (run initialState toStepSeven)
      [.ui (.locationInput "a"), .elapse 100, .ui (.locationInput "ab"), .elapse 399,
       .ui (.locationInput "abc"), .elapse 400]).lookups =
      (run initialState toStepSeven).lookups ++ ["abc"] :=
  ⟨by decide, by decide, by decide,
   (debounce_coalescing toStepSeven "q" 100 399 400 (by decide) (by decide) (by decide)
     (by decide) (by decide) (by decide)).2.2.1⟩

/-! ## Selecting a suggestion, and the failures of the two lookups -/

/-- C21, as stated, fails: when a suggestion is clicked while the timer of the
last input is pending, the record gets the suggestion, the timer stays pending,
and 400 time units later it passes its query to the lookup. -/
theorem selection_leaves_timer_pending :
    (run initialState selectAfterTyping).formData.from_location = "Chennai" ∧
    (run initialState selectAfterTyping).timers.map (fun t => t.query) = ["che"] ∧
    (run initialState selectAfterTyping).lookups = ["ch"] ∧
    (run initialState (selectAfterTyping ++ [.elapse 400])).lookups = ["ch", "che"] := by
  decide

/-- C21, amended. On every state, `selectSuggestion` with `x` sets
`from_location` and the displayed query to exactly `x`, leaves every other field
of the record and `currentStep` unchanged, and hides the suggestion list; it
leaves the pending timers and the timer ref as they are.  The click on a
suggestion is that call when the card of step 7 shows the suggestion. -/
theorem selectSuggestion_frame (s : WizardState) (x : String) :
    (selectSuggestion s x).formData.from_location = x ∧
    (selectSuggestion s x).locationQuery = x ∧
    (∀ f, f ≠ Field.from_location → (selectSuggestion s x).formData.get f = s.formData.get f) ∧
    (selectSuggestion s x).currentStep = s.currentStep ∧
    (selectSuggestion s x).showSuggestions = false ∧
    (selectSuggestion s x).timers = s.timers ∧
    (selectSuggestion s x).suggestionTimeout = s.suggestionTimeout ∧
    click s (.suggestionItem x) =
      (if s.currentStep = 7 ∧ s.showSuggestions = true ∧ x ∈ s.suggestions then
        selectSuggestion s x
      else s) := by
  refine ⟨rfl, rfl, ?_, rfl, rfl, rfl, rfl, ?_⟩
  · intro f hf
    cases f <;> simp [selectSuggestion, FormData.get] at hf ⊢
  · unfold click
    by_cases h7 : s.currentStep = 7 <;> by_cases hs : s.showSuggestions = true <;>
      by_cases hx : x ∈ s.suggestions <;> simp [enabled, fire, h7, hs, hx]

/-- C22. A failed suggestion lookup is swallowed: on every state of the mounted
component and for every query of at least 2 code units, `fetchSuggestions`
passes the query to the lookup, and when the lookup fails the suggestion list is
empty, no error message is set, and the record, `currentStep` and the loading
flag are as they were. -/
theorem failed_lookup_swallowed (s : WizardState) (q : String)
    (hn : s.navigated = false) (hq : 2 ≤ jsLength q.data) :
    (fetchSuggestions s q).lookups = s.lookups ++ [q] ∧
    (step (fetchSuggestions s q) .suggestionsFail).suggestions = [] ∧
    (step (fetchSuggestions s q) .suggestionsFail).error = s.error ∧
    (step (fetchSuggestions s q) .suggestionsFail).formData = s.formData ∧
    (step (fetchSuggestions s q) .suggestionsFail).currentStep = s.currentStep ∧
    (step (fetchSuggestions s q) .suggestionsFail).loading = s.loading ∧
    (step (fetchSuggestions s q) .suggestionsFail).lookupsInFlight = s.lookupsInFlight := by
  have hq2 : ¬ jsLength q.data < 2 := by omega
  simp [fetchSuggestions, hq2, step, hn]

/-- Witness for C22: the query "ch" on reaching step 7. -/
theorem failed_lookup_swallowed_witness :
    (run initialState toStepSeven).navigated = false ∧ 2 ≤ jsLength "ch".data ∧
    (step (fetchSuggestions (run initialState toStepSeven) "ch") .suggestionsFail).suggestions =
      [] ∧
    (step (fetchSuggestions (run initialState toStepSeven) "ch") .suggestionsFail).formData =
      (run initialState toStepSeven).formData :=
  ⟨by decide, by decide,
   (failed_lookup_swallowed (run initialState toStepSeven) "ch" (by decide) (by decide)).2.1,
   (failed_lookup_swallowed (run initialState toStepSeven) "ch" (by decide) (by decide)).2.2.2.1⟩

/-- C23. A failed submission corrupts nothing: on every state that shows the
card of step 9 with the confirm button enabled, the click followed by the
failure of the recommendation lookup gives the state as it was, except that the
error message is set (the loading flag is reset to what it was, and the payload
stays recorded as handed to `setUserPrefs` and to the lookup): the record and
`currentStep` are unchanged; the button is enabled again and a second click
submits the same payload. -/
theorem failed_submission_keeps_record (s : WizardState) (h9 : s.currentStep = 9)
    (hc : canProceed 9 s.formData = true) (hl : s.loading = false)
    (hn : s.navigated = false) :
    step (step s (.ui .confirmButton)) .recommendationsFail =
      { s with
        error := failureMessage
        userPrefs := some (buildPayload s.formData)
        requests := s.requests ++ [buildPayload s.formData] } ∧
    (step (step s (.ui .confirmButton)) .recommendationsFail).formData = s.formData ∧
    (step (step s (.ui .confirmButton)) .recommendationsFail).currentStep = s.currentStep ∧
    (step (step s (.ui .confirmButton)) .recommendationsFail).loading = false ∧
    enabled (step (step s (.ui .confirmButton)) .recommendationsFail) .confirmButton = true ∧
    (step (step (step s (.ui .confirmButton)) .recommendationsFail)
        (.ui .confirmButton)).requests =
      s.requests ++ [buildPayload s.formData, buildPayload s.formData] := by
  have e1 : step (step s (.ui .confirmButton)) .recommendationsFail =
      { s with
        error := failureMessage
        userPrefs := some (buildPayload s.formData)
        requests := s.requests ++ [buildPayload s.formData] } := by
    simp [step, hn, hl, click, enabled, fire, handleConfirm, h9, hc]
  rw [e1]
  refine ⟨rfl, rfl, rfl, hl, ?_, ?_⟩
  · simp [enabled, h9, hc]
  · simp [step, hn, hl, click, enabled, fire, handleConfirm, h9, hc]

/-- Witness for C23: the state of the scenario, on step 9 with one style chosen. -/
theorem failed_submission_keeps_record_witness :
    (run initialState arjunEvents).currentStep = 9 ∧
    canProceed 9 (run initialState arjunEvents).formData = true ∧
    (run initialState arjunEvents).loading = false ∧
    (run initialState arjunEvents).navigated = false ∧
    (step (step (run initialState arjunEvents) (.ui .confirmButton))
        .recommendationsFail).formData = (run initialState arjunEvents).formData ∧
    (step (step (run initialState arjunEvents) (.ui .confirmButton))
        .recommendationsFail).currentStep = (run initialState arjunEvents).currentStep :=
  ⟨by decide, by decide, by decide, by decide,
   (failed_submission_keeps_record (run initialState arjunEvents) (by decide) (by decide)
      (by decide) (by decide)).2.1,
   (failed_submission_keeps_record (run initialState arjunEvents) (by decide) (by decide)
      (by decide) (by decide)).2.2.1⟩

/-! ## More on the validator and the payload -/

/-- C24. For every step value outside 1..9 and every record, `canProceed` is
true. -/
theorem canProceed_outside_range (s : Int) (r : FormData) (h : s < 1 ∨ 9 < s) :
    canProceed s r = true := by
  unfold canProceed
  split <;> first | rfl | omega

/-- Witness for C24: the steps 0, 10 and -3 on the initial record. -/
theorem canProceed_outside_range_witness :
    canProceed 0 initialFormData = true ∧ canProceed 10 initialFormData = true ∧
    canProceed (-3) initialFormData = true :=
  ⟨canProceed_outside_range 0 initialFormData (by decide),
   canProceed_outside_range 10 initialFormData (by decide),
   canProceed_outside_range (-3) initialFormData (by decide)⟩

/-- C25. Building the payload is idempotent and leaves the record alone: on
every state, valid or not, `handleConfirm` called twice with no edit in between
hands the lookup two equal payloads, both the payload of the record, and the
record is the same after each call. -/
theorem payload_idempotent (s : WizardState) :
    (handleConfirm (handleConfirm s)).requests =
      s.requests ++ [buildPayload s.formData, buildPayload s.formData] ∧
    (handleConfirm s).userPrefs = (handleConfirm (handleConfirm s)).userPrefs ∧
    (handleConfirm s).formData = s.formData ∧
    (handleConfirm (handleConfirm s)).formData = s.formData ∧
    buildPayload (handleConfirm s).formData = buildPayload s.formData := by
  refine ⟨?_, rfl, rfl, rfl, rfl⟩
  simp [handleConfirm]

/-- C27. Unset fields fail validation: for every step `s` in 1..9, the validator
is false on the initial record, and false on every record whose fields named for
`s` still hold their initial values. -/
theorem unset_fields_fail (s : Int) (r : FormData) (h1 : 1 ≤ s) (h9 : s ≤ 9)
    (h : ∀ f ∈ stepFields s, r.get f = initialFormData.get f) :
    canProceed s initialFormData = false ∧ canProceed s r = false := by
  interval_cases s <;>
    simp [stepFields, FormData.get, initialFormData] at h <;>
    refine ⟨by decide, ?_⟩ <;>
    simp [canProceed, h] <;>
    decide

/-- Witness for C27: step 3 on a record in which only the name is written. -/
theorem unset_fields_fail_witness :
    (∀ f ∈ stepFields 3,
      FormData.get { initialFormData with name := "Arjun" } f = initialFormData.get f) ∧
    canProceed 3 initialFormData = false ∧
    canProceed 3 { initialFormData with name := "Arjun" } = false :=
  ⟨by decide, unset_fields_fail 3 { initialFormData with name := "Arjun" } (by decide)
    (by decide) (by decide)⟩

/-! ## The chosen styles -/

lemma toggleStyle_nodup (r : FormData) (x : String) (h : r.destination_styles.Nodup) :
    (toggleStyle r x).destination_styles.Nodup := by
  unfold toggleStyle
  by_cases hx : x ∈ r.destination_styles
  · have hc : r.destination_styles.contains x = true := by simp [hx]
    rw [if_pos hc]
    exact h.filter _
  · have hc : ¬ r.destination_styles.contains x = true := by simp [hx]
    rw [if_neg hc]
    rw [List.nodup_append]
    refine ⟨h, by simp, ?_⟩
    intro a ha hb
    simp only [List.mem_singleton] at hb
    exact hx (hb ▸ ha)

lemma foldl_toggleStyle_nodup (toggles : List String) (r : FormData)
    (h : r.destination_styles.Nodup) :
    (toggles.foldl toggleStyle r).destination_styles.Nodup := by
  induction toggles generalizing r with
  | nil => exact h
  | cons x xs ih => exact ih _ (toggleStyle_nodup r x h)

lemma fetchSuggestions_frame (s : WizardState) (q : String) :
    (fetchSuggestions s q).formData = s.formData ∧
    (fetchSuggestions s q).requests = s.requests := by
  unfold fetchSuggestions
  split <;> exact ⟨rfl, rfl⟩

lemma fireDue_frame (s : WizardState) :
    (fireDue s).formData = s.formData ∧ (fireDue s).requests = s.requests := by
  have key : ∀ (ts : List Timer) (u : WizardState),
      (ts.foldl (fun acc t => fetchSuggestions acc t.query) u).formData = u.formData ∧
      (ts.foldl (fun acc t => fetchSuggestions acc t.query) u).requests = u.requests := by
    intro ts
    induction ts with
    | nil => exact fun u => ⟨rfl, rfl⟩
    | cons t ts ih =>
      intro u
      simp only [List.foldl_cons]
      rw [(ih _).1, (ih _).2]
      exact fetchSuggestions_frame u t.query
  unfold fireDue
  exact key _ _

lemma step_frame (s : WizardState) (a : Action) (h : ∀ c, a ≠ .ui c) :
    (step s a).formData = s.formData ∧ (step s a).currentStep = s.currentStep ∧
    (step s a).requests = s.requests := by
  unfold step
  split
  · exact ⟨rfl, rfl, rfl⟩
  · cases a with
    | ui c => exact absurd rfl (h c)
    | elapse dt =>
      dsimp only
      exact ⟨(fireDue_frame _).1, fireDue_currentStep _, (fireDue_frame _).2⟩
    | suggestionsArrive l =>
      simp only
      split <;> exact ⟨rfl, rfl, rfl⟩
    | suggestionsFail =>
      simp only
      split <;> exact ⟨rfl, rfl, rfl⟩
    | recommendationsArrive =>
      simp only
      split <;> exact ⟨rfl, rfl, rfl⟩
    | recommendationsFail =>
      simp only
      split <;> exact ⟨rfl, rfl, rfl⟩

lemma fire_styles (s : WizardState) (c : Control) :
    (fire s c).formData.destination_styles = s.formData.destination_styles ∨
    ∃ item, (fire s c).formData.destination_styles =
      (toggleStyle s.formData item).destination_styles := by
  cases c <;>
    first
    | exact Or.inl rfl
    | exact Or.inr ⟨_, rfl⟩
    | (simp only [fire]
       split <;> exact Or.inl rfl)

lemma step_styles_nodup (s : WizardState) (a : Action)
    (h : s.formData.destination_styles.Nodup) :
    (step s a).formData.destination_styles.Nodup := by
  cases a with
  | ui c =>
    unfold step
    split
    · exact h
    · simp only
      split
      · exact h
      · unfold click
        split
        · rcases fire_styles s c with h1 | ⟨item, h1⟩
          · rw [h1]
            exact h
          · rw [h1]
            exact toggleStyle_nodup _ _ h
        · exact h
  | elapse dt => rw [(step_frame s _ (by simp)).1]; exact h
  | suggestionsArrive l => rw [(step_frame s _ (by simp)).1]; exact h
  | suggestionsFail => rw [(step_frame s _ (by simp)).1]; exact h
  | recommendationsArrive => rw [(step_frame s _ (by simp)).1]; exact h
  | recommendationsFail => rw [(step_frame s _ (by simp)).1]; exact h

lemma run_styles_nodup (as : List Action) (s : WizardState)
    (h : s.formData.destination_styles.Nodup) :
    (run s as).formData.destination_styles.Nodup := by
  induction as generalizing s with
  | nil => exact h
  | cons a as ih => exact ih (step s a) (step_styles_nodup s a h)

/-- C26. `destination_styles` is a duplicate-free set: after any sequence of
`toggleStyle` calls on the initial record, and in every state the component
reaches, the list holds no style twice; and on every record `toggleStyle` with
`x` makes `x` a member exactly when it was not one, keeps the other styles,
their membership and their order, and keeps every other field. -/
theorem styles_duplicate_free (toggles : List String) (as : List Action) (r : FormData)
    (x : String) :
    (toggles.foldl toggleStyle initialFormData).destination_styles.Nodup ∧
    (run initialState as).formData.destination_styles.Nodup ∧
    (x ∈ (toggleStyle r x).destination_styles ↔ x ∉ r.destination_styles) ∧
    (∀ y, y ≠ x → (y ∈ (toggleStyle r x).destination_styles ↔ y ∈ r.destination_styles)) ∧
    (toggleStyle r x).destination_styles.filter (fun y => y != x) =
      r.destination_styles.filter (fun y => y != x) ∧
    ∀ f, f ≠ Field.destination_styles → (toggleStyle r x).get f = r.get f := by
  refine ⟨foldl_toggleStyle_nodup _ _ (by simp [initialFormData]),
    run_styles_nodup _ _ (by simp [initialState, initialFormData]), ?_, ?_, ?_, ?_⟩
  · unfold toggleStyle
    by_cases hx : x ∈ r.destination_styles <;> simp [hx]
  · intro y hy
    unfold toggleStyle
    by_cases hx : x ∈ r.destination_styles <;> simp [hx, hy]
  · unfold toggleStyle
    by_cases hx : x ∈ r.destination_styles <;> simp [hx, List.filter_filter]
  · intro f hf
    cases f <;> simp [toggleStyle, FormData.get] at hf ⊢

/-! ## The reachable states of the wizard -/

lemma enabled_card (s : WizardState) (c : Control) (k : Int) (hen : enabled s c = true)
    (hk : c.card = some k) : s.currentStep = k := by
  cases c <;> cases hk <;>
    (simp only [enabled, Bool.and_eq_true, decide_eq_true_eq] at hen
     first
     | exact hen
     | exact hen.1
     | exact hen.1.1)

lemma fire_formData_unchanged (s : WizardState) (c : Control) (h : c.target = none) :
    (fire s c).formData = s.formData := by
  cases c <;>
    first
    | (simp [Control.target] at h
       done)
    | rfl
    | (simp only [fire]
       split <;> rfl)

lemma fire_other_step (s : WizardState) (c : Control) (k j : Int) (hk : c.card = some k)
    (hj : j ≠ k) : canProceed j (fire s c).formData = canProceed j s.formData := by
  by_cases ht : c.target = none
  · rw [fire_formData_unchanged s c ht]
  · by_cases hr : 1 ≤ j ∧ j ≤ 9
    · obtain ⟨h1, h9⟩ := hr
      cases c <;> cases hk <;>
        first
        | exact absurd rfl ht
        | (interval_cases j <;>
             first
             | exact absurd rfl hj
             | simp [canProceed, fire, handleLocationChange, selectSuggestion, toggleStyle])
    · have h : j < 1 ∨ 9 < j := by omega
      unfold canProceed
      split <;> first | rfl | omega

lemma fire_currentStep_of_card (s : WizardState) (c : Control) (k : Int)
    (hk : c.card = some k) : (fire s c).currentStep = s.currentStep := by
  cases c <;> cases hk <;>
    first
    | rfl
    | (simp only [fire]
       split <;> rfl)

lemma continueTarget_spec (cs k : Int) (h : continueTarget cs = some k) :
    k = cs + 1 ∧ 1 ≤ cs ∧ cs ≤ 8 := by
  unfold continueTarget at h
  split at h <;> cases h <;> decide

lemma backTarget_spec (cs k : Int) (h : backTarget cs = some k) :
    k = cs - 1 ∧ 2 ≤ cs ∧ cs ≤ 9 := by
  unfold backTarget at h
  split at h <;> cases h <;> decide

lemma validRecord_of_confirm (s : WizardState) (hp : PassedSteps s)
    (hen : enabled s .confirmButton = true) : ValidRecord s.formData := by
  simp only [enabled, Bool.and_eq_true, decide_eq_true_eq] at hen
  obtain ⟨h9, hc⟩ := hen
  intro j hj1 hj9
  by_cases hj : j = s.currentStep
  · rw [hj]
    exact hc
  · exact hp j hj1 (by omega)

lemma click_passedSteps (s : WizardState) (c : Control) (h : PassedSteps s) :
    PassedSteps (click s c) := by
  unfold click
  split
  · rename_i hen
    cases hcard : c.card with
    | some k =>
      have hk := enabled_card s c k hen hcard
      intro j hj1 hj2
      rw [fire_currentStep_of_card s c k hcard] at hj2
      rw [fire_other_step s c k j hcard (by omega)]
      exact h j hj1 hj2
    | none =>
      cases c <;> cases hcard
      · simp only [enabled, Bool.and_eq_true] at hen
        obtain ⟨hsome, hcan⟩ := hen
        obtain ⟨k, hk⟩ := Option.isSome_iff_exists.mp hsome
        obtain ⟨hk1, -, -⟩ := continueTarget_spec _ _ hk
        simp only [fire, hk]
        intro j hj1 hj2
        dsimp only at hj2 ⊢
        by_cases hjk : j = s.currentStep
        · rw [hjk]
          exact hcan
        · exact h j hj1 (by omega)
      · simp only [enabled] at hen
        obtain ⟨k, hk⟩ := Option.isSome_iff_exists.mp hen
        obtain ⟨hk1, -, -⟩ := backTarget_spec _ _ hk
        simp only [fire, hk]
        intro j hj1 hj2
        dsimp only at hj2 ⊢
        exact h j hj1 (by omega)
      · exact h
  · exact h

lemma fire_requests (s : WizardState) (c : Control) (hc : c ≠ .confirmButton) :
    (fire s c).requests = s.requests := by
  cases c <;>
    first
    | exact absurd rfl hc
    | rfl
    | (simp only [fire]
       split <;> rfl)

lemma click_submittedValid (s : WizardState) (c : Control) (hp : PassedSteps s)
    (h : SubmittedValid s) : SubmittedValid (click s c) := by
  unfold click
  split
  · rename_i hen
    by_cases hc : c = .confirmButton
    · subst hc
      intro p hp2
      simp only [fire, handleConfirm, List.mem_append, List.mem_singleton] at hp2
      rcases hp2 with h1 | h2
      · exact h p h1
      · exact ⟨s.formData, validRecord_of_confirm s hp hen, h2⟩
    · intro p hp2
      rw [fire_requests s c hc] at hp2
      exact h p hp2
  · exact h

lemma step_wizardInv (s : WizardState) (a : Action) (h : PassedSteps s ∧ SubmittedValid s) :
    PassedSteps (step s a) ∧ SubmittedValid (step s a) := by
  cases a with
  | ui c =>
    unfold step
    split
    · exact h
    · simp only
      split
      · exact h
      · exact ⟨click_passedSteps s c h.1, click_submittedValid s c h.1 h.2⟩
  | elapse dt =>
    obtain ⟨e1, e2, e3⟩ := step_frame s (.elapse dt) (by simp)
    exact ⟨fun j hj1 hj2 => by rw [e1]; rw [e2] at hj2; exact h.1 j hj1 hj2,
      fun p hp => by rw [e3] at hp; exact h.2 p hp⟩
  | suggestionsArrive l =>
    obtain ⟨e1, e2, e3⟩ := step_frame s (.suggestionsArrive l) (by simp)
    exact ⟨fun j hj1 hj2 => by rw [e1]; rw [e2] at hj2; exact h.1 j hj1 hj2,
      fun p hp => by rw [e3] at hp; exact h.2 p hp⟩
  | suggestionsFail =>
    obtain ⟨e1, e2, e3⟩ := step_frame s .suggestionsFail (by simp)
    exact ⟨fun j hj1 hj2 => by rw [e1]; rw [e2] at hj2; exact h.1 j hj1 hj2,
      fun p hp => by rw [e3] at hp; exact h.2 p hp⟩
  | recommendationsArrive =>
    obtain ⟨e1, e2, e3⟩ := step_frame s .recommendationsArrive (by simp)
    exact ⟨fun j hj1 hj2 => by rw [e1]; rw [e2] at hj2; exact h.1 j hj1 hj2,
      fun p hp => by rw [e3] at hp; exact h.2 p hp⟩
  | recommendationsFail =>
    obtain ⟨e1, e2, e3⟩ := step_frame s .recommendationsFail (by simp)
    exact ⟨fun j hj1 hj2 => by rw [e1]; rw [e2] at hj2; exact h.1 j hj1 hj2,
      fun p hp => by rw [e3] at hp; exact h.2 p hp⟩

lemma run_wizardInv (as : List Action) (s : WizardState)
    (h : PassedSteps s ∧ SubmittedValid s) :
    PassedSteps (run s as) ∧ SubmittedValid (run s as) := by
  induction as generalizing s with
  | nil => exact h
  | cons a as ih => exact ih (step s a) (step_wizardInv s a h)

lemma wizardInv_initialState : PassedSteps initialState ∧ SubmittedValid initialState := by
  constructor
  · intro j hj1 hj2
    have : initialState.currentStep = 1 := rfl
    omega
  · intro p hp
    simp [initialState] at hp

/-- C28. The reachable-state invariant: in every state the component reaches
from its initial state, the predicate of every step before `currentStep` holds
for the record; so whenever the confirm button is enabled all nine predicates
hold for the record, and every payload handed to the recommendation lookup was
built from a record for which all nine hold. -/
theorem passed_steps_hold (as : List Action) :
    PassedSteps (run initialState as) ∧
    (enabled (run initialState as) .confirmButton = true →
      ValidRecord (run initialState as).formData) ∧
    SubmittedValid (run initialState as) :=
  ⟨(run_wizardInv as initialState wizardInv_initialState).1,
   validRecord_of_confirm _ (run_wizardInv as initialState wizardInv_initialState).1,
   (run_wizardInv as initialState wizardInv_initialState).2⟩

/-- Witness for C28: the state of the scenario, where the confirm button is
enabled. -/
theorem passed_steps_hold_witness :
    enabled (run initialState arjunEvents) .confirmButton = true ∧
    ValidRecord (run initialState arjunEvents).formData :=
  ⟨by decide, (passed_steps_hold arjunEvents).2.1 (by decide)⟩

/-! ## The two tests of the second loop, and shadowing in the table -/

lemma splitFrom_occurs (rest : List Char) :
    ∀ (inRun : Bool) (cur : List Char), ∀ w ∈ splitFrom inRun cur rest,
      w <:+: cur.reverse ++ rest := by
  induction rest with
  | nil =>
    intro inRun cur w hw
    simp only [splitFrom, List.mem_singleton] at hw
    rw [hw, List.append_nil]
  | cons c cs ih =>
    intro inRun cur w hw
    have hcs : ∀ v, v <:+: cs → v <:+: cur.reverse ++ c :: cs := fun v hv =>
      hv.trans ((List.suffix_cons c cs).trans (List.suffix_append _ _)).isInfix
    unfold splitFrom at hw
    by_cases hsep : isSeparator c = true
    · simp only [hsep, if_true] at hw
      by_cases hrun : inRun = true
      · simp only [hrun, if_true] at hw
        exact hcs w (by simpa using ih true [] w hw)
      · simp only [hrun, Bool.false_eq_true, if_false, List.mem_cons] at hw
        rcases hw with h1 | h2
        · rw [h1]
          exact (List.prefix_append _ _).isInfix
        · exact hcs w (by simpa using ih true [] w h2)
    · simp only [hsep, Bool.false_eq_true, if_false] at hw
      have := ih false (c :: cur) w hw
      simpa using this

lemma word_occurs (c : List Char) : ∀ w ∈ words c, w <:+: c := by
  intro w hw
  have h := splitFrom_occurs c false [] w (List.mem_of_mem_filter hw)
  simpa using h

lemma find?_congr_mem {α : Type} (l : List α) (p q : α → Bool) (h : ∀ a ∈ l, p a = q a) :
    l.find? p = l.find? q := by
  induction l with
  | nil => rfl
  | cons a l ih =>
    simp only [List.find?_cons, h a (List.mem_cons_self a l)]
    rw [ih (fun b hb => h b (List.mem_cons_of_mem a hb))]

lemma findSome?_congr_mem {α β : Type} (l : List α) (f g : α → Option β)
    (h : ∀ a ∈ l, f a = g a) : l.findSome? f = l.findSome? g := by
  induction l with
  | nil => rfl
  | cons a l ih =>
    simp only [List.findSome?_cons, h a (List.mem_cons_self a l)]
    rw [ih (fun b hb => h b (List.mem_cons_of_mem a hb))]

lemma no_keyword_in_word (c : List Char) (h : directMatch c = none) :
    ∀ w ∈ words c, ∀ e ∈ DESTINATION_IMAGES, e.1 ≠ "default" → ¬ e.1.data <:+: w :=
  fun w hw e he hd hsub => directMatch_eq_none c h e he hd (hsub.trans (word_occurs c w hw))

/-- C29. The test "the word contains the keyword" of the second loop never
decides a result: whenever the first loop finds nothing, no word of `combined`
contains a keyword of the table, since every word occurs in `combined`; hence
for every `toLowerCase`, name and keyword hint `getDestinationImage` equals the
variant whose second loop tests only whether the keyword contains the word. -/
theorem word_contains_keyword_never_decides (toLowerCase : List Char → List Char)
    (name : String) (imageKeyword : Option String) :
    (∀ w ∈ words (combinedOf toLowerCase name imageKeyword),
      w <:+: combinedOf toLowerCase name imageKeyword) ∧
    (directMatch (combinedOf toLowerCase name imageKeyword) = none →
      ∀ w ∈ words (combinedOf toLowerCase name imageKeyword),
        ∀ e ∈ DESTINATION_IMAGES, e.1 ≠ "default" → ¬ e.1.data <:+: w) ∧
    getDestinationImage toLowerCase name imageKeyword =
      getDestinationImageKeywordOnly toLowerCase name imageKeyword := by
  refine ⟨word_occurs _, no_keyword_in_word _, ?_⟩
  unfold getDestinationImage getDestinationImageKeywordOnly
  cases hm : directMatch (combinedOf toLowerCase name imageKeyword) with
  | some e => rfl
  | none =>
    have hw : wordMatch (combinedOf toLowerCase name imageKeyword) =
        wordMatchKeywordOnly (combinedOf toLowerCase name imageKeyword) := by
      unfold wordMatch wordMatchKeywordOnly
      apply findSome?_congr_mem
      intro w hw
      apply find?_congr_mem
      intro e he
      by_cases hd : e.1 = "default"
      · simp [hd]
      · have hno : includes w e.1.data = false := by
          rw [Bool.eq_false_iff]
          intro hin
          exact no_keyword_in_word _ hm w hw e he hd ((includes_iff _ _).mp hin)
        simp [hno]
    simp only [hw]

/-- Witness for C29: "hil mana", which the first loop does not resolve. -/
theorem word_contains_keyword_never_decides_witness :
    directMatch (combinedOf asciiToLowerCase "hil mana" none) = none ∧
    (∀ w ∈ words (combinedOf asciiToLowerCase "hil mana" none),
      ∀ e ∈ DESTINATION_IMAGES, e.1 ≠ "default" → ¬ e.1.data <:+: w) ∧
    getDestinationImage asciiToLowerCase "hil mana" none =
      getDestinationImageKeywordOnly asciiToLowerCase "hil mana" none :=
  ⟨by decide,
   (word_contains_keyword_never_decides asciiToLowerCase "hil mana" none).2.1 (by decide),
   (word_contains_keyword_never_decides asciiToLowerCase "hil mana" none).2.2⟩

set_option maxRecDepth 100000 in
lemma keywords_not_nested :
    (DESTINATION_IMAGES.filter (fun e => e.1 != "default")).Pairwise
      (fun a b => includes b.1.data a.1.data = false) := by
  decide

set_option maxRecDepth 100000 in
lemma keyword_resolves_ascii :
    ∀ e ∈ DESTINATION_IMAGES, e.1 ≠ "default" →
      getDestinationImage asciiToLowerCase e.1 (some "") = e.2 := by
  decide

set_option maxRecDepth 100000 in
lemma keywords_ascii :
    ∀ e ∈ DESTINATION_IMAGES, ∀ c ∈ e.1.data ++ ' ' :: ("").data, c.toNat < 128 := by
  decide

/-- C30. No entry of the table is shadowed: among the keywords other than
`default`, no keyword occurs in a keyword declared after it; and for a
`toLowerCase` that lowers ASCII letters, `getDestinationImage` called with a
keyword as the name and the empty hint returns the image declared for that
keyword. -/
theorem no_entry_shadowed (toLowerCase : List Char → List Char)
    (hL : LowersAscii toLowerCase) :
    (DESTINATION_IMAGES.filter (fun e => e.1 != "default")).Pairwise
      (fun a b => ¬ a.1.data <:+: b.1.data) ∧
    ∀ e ∈ DESTINATION_IMAGES, e.1 ≠ "default" →
      getDestinationImage toLowerCase e.1 (some "") = e.2 := by
  constructor
  · refine keywords_not_nested.imp ?_
    intro a b hab hsub
    rw [(includes_iff _ _).mpr hsub] at hab
    cases hab
  · intro e he hd
    rw [(getDestinationImage_ascii toLowerCase hL e.1 (some "") (keywords_ascii e he)).2]
    exact keyword_resolves_ascii e he hd

/-- Witness for C30: the ASCII lower case, on the keyword `golden temple`. -/
theorem no_entry_shadowed_witness :
    LowersAscii asciiToLowerCase ∧
    getDestinationImage asciiToLowerCase "golden temple" (some "") =
      "https://images.unsplash.com/photo-1548013146-72479768bada?w=600&q=80" :=
  ⟨lowersAscii_asciiToLowerCase,
   (no_entry_shadowed asciiToLowerCase lowersAscii_asciiToLowerCase).2
     ("golden temple", "https://images.unsplash.com/photo-1548013146-72479768bada?w=600&q=80")
     (by decide) (by decide)⟩

end GypsyCompass
